import Mathlib

/-!
Verification of the entity-resolution-and-orchestration pipeline of
`backend/server.py` (Omie MCP server).

The embedding models Python/JSON values with the inductive type `Json`.
Dynamic (duck-typed) operations of the source — `dict.get`, truthiness,
`''.join(filter(str.isdigit, x))`, `str.lower`, iteration, slicing,
`sorted(..., key=..., reverse=True)` — are modelled by functions returning
`Except String` values, where `Except.error` marks the point where the
Python code would raise an unhandled exception.  Numeric JSON values are
modelled as integers (the code never computes with the float defaults, it
only copies them).  The two awaited external services are oracles:
`OmieEnv` maps a `ListarClientes` page request (page number and filter) or
a `ListarPedidos` request (customer id) to an `HttpOutcome`, and `IaEnv`
gives the outcome of the two Gemini calls.  `json.loads` of the standard
library is an explicit parameter `loads : String → Option Json` of the
question-answering tool.  The monad `PyM` threads, besides the possible
exception, the list of `ListarClientes` page numbers requested so far, so
that pagination claims can speak about which directory pages were fetched.
-/

/-- A JSON / Python value as handled by `server.py`. -/
inductive Json where
  | null
  | bool (b : Bool)
  | num (n : Int)
  | str (s : String)
  | arr (xs : List Json)
  | obj (kvs : List (String × Json))
deriving Repr

mutual

/-- Equality of JSON values (used for Python dict keys). -/
def Json.beq : Json → Json → Bool
  | .null, .null => true
  | .bool a, .bool b => a == b
  | .num a, .num b => a == b
  | .str a, .str b => a == b
  | .arr xs, .arr ys => Json.beqList xs ys
  | .obj xs, .obj ys => Json.beqObj xs ys
  | _, _ => false

def Json.beqList : List Json → List Json → Bool
  | [], [] => true
  | x :: xs, y :: ys => Json.beq x y && Json.beqList xs ys
  | _, _ => false

def Json.beqObj : List (String × Json) → List (String × Json) → Bool
  | [], [] => true
  | (k1, v1) :: xs, (k2, v2) :: ys => k1 == k2 && Json.beq v1 v2 && Json.beqObj xs ys
  | _, _ => false

end

/-- First binding of a key in an object body (Python dicts have unique keys). -/
def jlookup : List (String × Json) → String → Option Json
  | [], _ => none
  | (k, v) :: rest, key => if k == key then some v else jlookup rest key

/-- Python truthiness of a JSON value. -/
def pyTruthy : Json → Bool
  | .null => false
  | .bool b => b
  | .num n => n != 0
  | .str s => s != ""
  | .arr xs => !xs.isEmpty
  | .obj kvs => !kvs.isEmpty

/-- Truthiness of an optional value (a Python variable that may hold None
or a record). -/
def pyTruthyOpt : Option Json → Bool
  | none => false
  | some j => pyTruthy j

/-- Model of `x.get(key, default)`: succeeds on a dict, raises
`AttributeError` on any other value. -/
def pyGetD : Json → String → Json → Except String Json
  | .obj kvs, k, d => .ok ((jlookup kvs k).getD d)
  | _, _, _ => .error "AttributeError: valor sem método get"

/-- Model of `''.join(filter(str.isdigit, xs))` when iterating a list of
values: each element must be a string, and a whole element is kept when it
is a nonempty all-digit string. -/
def joinStrsDigits : List Json → Except String String
  | [] => .ok ""
  | .str s :: rest => do
      let r ← joinStrsDigits rest
      pure ((if s ≠ "" && s.data.all Char.isDigit then s else "") ++ r)
  | _ => .error "TypeError: str.isdigit espera uma str"

/-- Model of `''.join(filter(str.isdigit, x))`.  On a string it keeps the
digit characters; on a list (or dict, which iterates its keys) it keeps the
all-digit string elements; on None, a bool or a number it raises
`TypeError` (not iterable / isdigit on a non-str). -/
def pyJoinDigits : Json → Except String String
  | .str s => .ok (String.mk (s.data.filter Char.isDigit))
  | .arr xs => joinStrsDigits xs
  | .obj kvs => joinStrsDigits (kvs.map (fun kv => Json.str kv.1))
  | .null => .error "TypeError: None não é iterável"
  | .bool _ => .error "TypeError: bool não é iterável"
  | .num _ => .error "TypeError: int não é iterável"

/-- Model of `x.lower()`: defined on strings only (character-level ASCII
lowering, which is what the directory names exercise). -/
def asStrLower : Json → Except String String
  | .str s => .ok (String.mk (s.data.map Char.toLower))
  | _ => .error "AttributeError: valor sem método lower"

/-- Model of `for v in x`: a list yields its elements, a string its
characters, a dict its keys; other values are not iterable. -/
def pyIter : Json → Except String (List Json)
  | .arr xs => .ok xs
  | .str s => .ok (s.data.map (fun c => Json.str (String.mk [c])))
  | .obj kvs => .ok (kvs.map (fun kv => Json.str kv.1))
  | .null => .error "TypeError: None não é iterável"
  | .bool _ => .error "TypeError: bool não é iterável"
  | .num _ => .error "TypeError: int não é iterável"

mutual

/-- Python `repr` of a value, as interpolated for lists/dicts. -/
def pyRepr : Json → String
  | .null => "None"
  | .bool true => "True"
  | .bool false => "False"
  | .num n => toString n
  | .str s => "\x27" ++ s ++ "\x27"
  | .arr xs => "[" ++ pyReprList xs ++ "]"
  | .obj kvs => "\x7b" ++ pyReprObj kvs ++ "\x7d"

def pyReprList : List Json → String
  | [] => ""
  | [x] => pyRepr x
  | x :: xs => pyRepr x ++ ", " ++ pyReprList xs

def pyReprObj : List (String × Json) → String
  | [] => ""
  | [(k, v)] => "\x27" ++ k ++ "\x27: " ++ pyRepr v
  | (k, v) :: xs => "\x27" ++ k ++ "\x27: " ++ pyRepr v ++ ", " ++ pyReprObj xs

end

/-- Python `str(x)` as used by f-string interpolation. -/
def pyStr : Json → String
  | .str s => s
  | j => pyRepr j

/-- Initial segment test on character lists (model of `str.startswith`). -/
def leadEq : List Char → List Char → Bool
  | [], _ => true
  | _ :: _, [] => false
  | p :: ps, c :: cs => p == c && leadEq ps cs

/-- Substring test on character lists. -/
def hasSub (pat : List Char) : List Char → Bool
  | [] => pat.isEmpty
  | c :: cs => leadEq pat (c :: cs) || hasSub pat cs

/-- Model of Python `needle in hay` on strings. -/
def strIn (needle hay : String) : Bool :=
  hasSub needle.data hay.data

/-- Python string comparison with a JSON value: `s == x` is False unless
`x` is a string. -/
def strEqJson (s : String) : Json → Bool
  | .str t => s == t
  | _ => false

/-- Whitespace as stripped by Python `str.strip()`. -/
def pyWsChar (c : Char) : Bool :=
  c == ' ' || c == '\t' || c == '\n' || c == '\r' || c == '\x0b' || c == '\x0c'

/-- Model of `str.strip()` on character lists. -/
def pyStrip (cs : List Char) : List Char :=
  ((cs.dropWhile pyWsChar).reverse.dropWhile pyWsChar).reverse

/-- The fence-stripping of the Gemini analysis reply (server.py lines
331-336): strip, then remove a leading ```json or ``` fence together with
the trailing ``` fence (Python slices `[7:-3]` / `[3:-3]`), then strip
again. -/
def stripFenceChars (cs : List Char) : List Char :=
  if leadEq "```json".data (pyStrip cs) then
    pyStrip (((pyStrip cs).drop 7).take (((pyStrip cs).drop 7).length - 3))
  else if leadEq "```".data (pyStrip cs) then
    pyStrip (((pyStrip cs).drop 3).take (((pyStrip cs).drop 3).length - 3))
  else pyStrip cs

/-- String-level wrapper of `stripFenceChars`. -/
def stripFence (raw : String) : String :=
  String.mk (stripFenceChars raw.data)

/-- Model of Python `x == 1` on a JSON value (`True == 1` holds). -/
def pyEqOne : Json → Bool
  | .num n => n == 1
  | .bool b => b
  | _ => false

/-- Model of the loop re-check `current_page <= total_pages` for
`current_page = p`: on an int (or bool, which compares as 0/1) it returns
`some bound` when the comparison holds and `none` when it does not; on any
other value it raises `TypeError`. -/
def pyLeTp (p : Int) : Json → Except String (Option Int)
  | .num n => .ok (if p ≤ n then some n else none)
  | .bool b => .ok (if p ≤ (if b then (1 : Int) else 0) then some (if b then 1 else 0) else none)
  | _ => .error "TypeError: comparação de int com tipo não ordenável"

/-- Python `x[:3]`: slices lists and strings, raises on other values. -/
def pySlice3 : Json → Except String Json
  | .arr xs => .ok (.arr (xs.take 3))
  | .str s => .ok (.str (String.mk (s.data.take 3)))
  | .null => .error "TypeError: fatiamento de None"
  | .bool _ => .error "TypeError: fatiamento de bool"
  | .num _ => .error "TypeError: fatiamento de int"
  | .obj _ => .error "TypeError: fatiamento de dict"

/-- Python dict insert-or-assign: an existing key keeps its position and
gets the new value, a new key is appended (model of the dict comprehension
in server.py line 195, whose keys are `match.get("nome_fantasia")`). -/
def dictUpsert (kvs : List (Json × Json)) (k v : Json) : List (Json × Json) :=
  match kvs with
  | [] => [(k, v)]
  | (k1, v1) :: rest =>
    if Json.beq k1 k then (k1, v) :: rest
    else (k1, v1) :: dictUpsert rest k v

/-- Builds the dict `{m.get("nome_fantasia"): m for m in matches}` from the
already-computed key/value pairs, in iteration order. -/
def upsertAll (acc : List (Json × Json)) : List (Json × Json) → List (Json × Json)
  | [] => acc
  | (k, v) :: rest => upsertAll (dictUpsert acc k v) rest

/-- Outcome of one POST to the Omie API as seen by `call_omie_api` after
the `httpx` call: a 2xx response whose body parsed as JSON, a non-2xx
status (raise_for_status), a transport failure, or a body that failed JSON
decoding. -/
inductive HttpOutcome where
  | success (status : Nat) (body : Json)
  | statusError (status : Nat) (text : String)
  | requestError (msg : String)
  | decodeError (status : Nat)

/-- The uniform error dictionary built by `call_omie_api`. -/
def errObj (status : Option Nat) (message : Json) : Json :=
  .obj [("error", .bool true),
        ("status_code", match status with | none => .null | some n => .num n),
        ("message", message)]

/-- Embedding of `call_omie_api` (server.py lines 58-83) from the point
where the HTTP outcome is known.  On a 2xx JSON body it checks
`response_json.get('faultstring') or response_json.get('faultcode')` for
truthiness; a non-dict body makes `.get` raise `AttributeError`, which the
final `except Exception` converts to the generic error dictionary. -/
def callOmieApi : HttpOutcome → Json
  | .success status body =>
    match body with
    | .obj kvs =>
      if pyTruthy ((jlookup kvs "faultstring").getD .null)
          || pyTruthy ((jlookup kvs "faultcode").getD .null) then
        errObj (some status) ((jlookup kvs "faultstring").getD (.str "Erro desconhecido da Omie"))
      else .obj kvs
    | _ => errObj none (.str "Erro inesperado no processamento da API")
  | .statusError status text => errObj (some status) (.str text)
  | .requestError m => errObj none (.str m)
  | .decodeError status => errObj (some status) (.str "Falha ao decodificar a resposta da API Omie")

/-- Computation monad for the tools: a possible uncaught Python exception
(`Except.error`) together with the list of `ListarClientes` page numbers
requested so far. -/
def PyM (α : Type) : Type := List Nat → Except String α × List Nat

def PyM.pure {α : Type} (a : α) : PyM α := fun tr => (.ok a, tr)

def PyM.bind {α β : Type} (x : PyM α) (f : α → PyM β) : PyM β := fun tr =>
  match x tr with
  | (.ok a, tr1) => f a tr1
  | (.error e, tr1) => (.error e, tr1)

instance : Monad PyM where
  pure := PyM.pure
  bind := PyM.bind

/-- Lifts a possibly-raising pure operation into `PyM`. -/
def liftE {α : Type} (e : Except String α) : PyM α := fun tr => (e, tr)

/-- Records that `ListarClientes` was called for page `p`. -/
def logPage (p : Nat) : PyM Unit := fun tr => (.ok (), tr ++ [p])

/-- Early `return` of an error string from inside the scan, versus normal
continuation. -/
inductive LoopOut (α : Type) where
  | ret (s : String)
  | cont (a : α)

/-- Mutable state of the pagination loop: `found_customer_details`,
`customer_id` and `possible_matches_by_name`. -/
structure St where
  found : Option Json
  custId : Json
  byName : List Json

def st0 : St := ⟨none, .null, []⟩

/-- The two external record-API oracles: `ListarClientes` keyed by page
number and the `clientesFiltro` object, and `ListarPedidos` keyed by the
`filtrar_por_cliente` customer id. -/
structure OmieEnv where
  clientes : Nat → Json → HttpOutcome
  pedidos : Json → HttpOutcome

/-- The `clientesFiltro` object (server.py lines 125-144): the normalized
tax id wins, else the name hint, else the city hint, else an empty
filter. -/
def buildFilter (normC nomeJ cidadeJ : Json) : Json :=
  if pyTruthy normC then .obj [("cnpj_cpf", normC)]
  else if pyTruthy nomeJ then .obj [("nome_fantasia", nomeJ)]
  else if pyTruthy cidadeJ then .obj [("cidade", cidadeJ)]
  else .obj []

/-- Inner loop over the records of one page (server.py lines 159-173).
For each record it computes the digits of `cnpj_cpf` and reads
`nome_fantasia`; a tax-id match either reports the duplicate-CNPJ error
(when an earlier direct hit is held) or stores the record and its
`codigo_cliente_omie` and breaks; a name match (only without a tax-id
hint) is appended to the running match list. -/
def processRecords (cnpjInput normC nomeJ : Json) : List Json → St → PyM (LoopOut St)
  | [], st => pure (.cont st)
  | r :: rest, st => do
    let cnpjV ← liftE (pyGetD r "cnpj_cpf" (.str ""))
    let apiCnpj ← liftE (pyJoinDigits cnpjV)
    let apiNome ← liftE (pyGetD r "nome_fantasia" (.str ""))
    if pyTruthy normC && strEqJson apiCnpj normC then
      match st.found with
      | some _ =>
        pure (.ret ("Erro: Múltiplos registros encontrados com o mesmo CNPJ/CPF ("
          ++ pyStr cnpjInput ++ ") na paginação. Verifique os dados na Omie."))
      | none => do
        let cid ← liftE (pyGetD r "codigo_cliente_omie" .null)
        pure (.cont { found := some r, custId := cid, byName := st.byName })
    else if pyTruthy nomeJ && !(pyTruthy normC) then do
      let hintLower ← liftE (asStrLower nomeJ)
      let apiLower ← liftE (asStrLower apiNome)
      if strIn hintLower apiLower then
        processRecords cnpjInput normC nomeJ rest { st with byName := st.byName ++ [r] }
      else
        processRecords cnpjInput normC nomeJ rest st
    else
      processRecords cnpjInput normC nomeJ rest st

/-- One pagination-loop iteration for a page `p ≥ 2` (no total-page update
and no first-page emptiness check happen there). -/
def pageStep (env : OmieEnv) (cnpjInput normC nomeJ cidadeJ : Json) (p : Nat) (st : St) :
    PyM (LoopOut St) := do
  logPage p
  let resp := callOmieApi (env.clientes p (buildFilter normC nomeJ cidadeJ))
  let errV ← liftE (pyGetD resp "error" .null)
  if pyTruthy errV then do
    let msgV ← liftE (pyGetD resp "message" (.str "Erro desconhecido na API"))
    pure (.ret ("Erro ao buscar cliente (página " ++ toString p ++ "): " ++ pyStr msgV))
  else do
    let lst ← liftE (pyGetD resp "clientes_cadastro" .null)
    if pyTruthy lst then do
      let elems ← liftE (pyIter lst)
      processRecords cnpjInput normC nomeJ elems st
    else pure (.cont st)

/-- The pagination loop from page 2 on: the `while` head re-checks
`customer_id` before each fetch (lines 117-118), then runs `pageStep`. -/
def scanRest (env : OmieEnv) (cnpjInput normC nomeJ cidadeJ : Json) :
    List Nat → St → PyM (LoopOut St)
  | [], st => pure (.cont st)
  | p :: ps, st =>
    if pyTruthy st.custId then pure (.cont st)
    else do
      let out ← pageStep env cnpjInput normC nomeJ cidadeJ p st
      match out with
      | .ret s => pure (.ret s)
      | .cont st1 => scanRest env cnpjInput normC nomeJ cidadeJ ps st1

/-- The list of pages the loop will visit after page 1 when the bound read
on page 1 is `n`: pages 2, 3, …, n. -/
def pagesAfterOne (n : Int) : List Nat :=
  List.range' 2 ((n - 1).toNat)

/-- The whole pagination loop (server.py lines 111-185).  Page 1 is always
fetched (`current_page = 1 ≤ total_pages = 1`); its response sets
`total_pages` (`total_de_paginas`, default 1) and may trigger the
first-page-empty early return; afterwards the loop condition
`current_page <= total_pages` compares an int with the stored JSON value,
raising `TypeError` unless it is an int (or bool). -/
def scanAll (env : OmieEnv) (cnpjInput normC nomeJ cidadeJ : Json) : PyM (LoopOut St) := do
  logPage 1
  let resp := callOmieApi (env.clientes 1 (buildFilter normC nomeJ cidadeJ))
  let errV ← liftE (pyGetD resp "error" .null)
  if pyTruthy errV then do
    let msgV ← liftE (pyGetD resp "message" (.str "Erro desconhecido na API"))
    pure (.ret ("Erro ao buscar cliente (página 1): " ++ pyStr msgV))
  else do
    let tpJ ← liftE (pyGetD resp "total_de_paginas" (.num 1))
    let lst ← liftE (pyGetD resp "clientes_cadastro" .null)
    let out ← if pyTruthy lst then do
        let elems ← liftE (pyIter lst)
        processRecords cnpjInput normC nomeJ elems st0
      else pure (.cont st0)
    match out with
    | .ret s => pure (.ret s)
    | .cont st1 =>
      if pyTruthy st1.custId then pure (.cont st1)
      else if !(pyTruthy lst) && pyEqOne tpJ then
        pure (.ret "Erro: Cliente não encontrado com os critérios fornecidos (nenhum resultado na primeira página).")
      else do
        let bound ← liftE (pyLeTp 2 tpJ)
        match bound with
        | none => pure (.cont st1)
        | some n => scanRest env cnpjInput normC nomeJ cidadeJ (pagesAfterOne n) st1

/-- Post-pagination name disambiguation (server.py lines 188-201): with no
customer id and a nonempty match list, a single match is used directly;
with several, the dict comprehension keyed on `nome_fantasia` dedups them —
one distinct name picks `list(unique_names.values())[0]`, several return
the ambiguous-name error naming `len(unique_names)`. -/
def resolvePost (nomeJ : Json) (st : St) : PyM (LoopOut (Option Json × Json)) :=
  if !(pyTruthy st.custId) && !st.byName.isEmpty then
    match st.byName with
    | [] => pure (.cont (st.found, st.custId))
    | [m] => do
      let cid ← liftE (pyGetD m "codigo_cliente_omie" .null)
      pure (.cont (some m, cid))
    | ms => do
      let pairs ← ms.mapM (fun m => do
        let k ← liftE (pyGetD m "nome_fantasia" .null)
        Pure.pure (k, m))
      let uniq := upsertAll [] pairs
      if uniq.length == 1 then
        match uniq with
        | [] => liftE (.error "IndexError: lista vazia")
        | (_, v) :: _ => do
          let cid ← liftE (pyGetD v "codigo_cliente_omie" .null)
          pure (.cont (some v, cid))
      else
        pure (.ret ("Erro: Múltiplos clientes (" ++ toString uniq.length
          ++ ") encontrados com o Nome Fantasia \x27" ++ pyStr nomeJ
          ++ "\x27 após verificar todas as páginas. Por favor, forneça um CNPJ/CPF ou um Nome Fantasia mais específico."))
  else pure (.cont (st.found, st.custId))

/-- The sort key `lambda p: p.get("cabecalho", {}).get("numero_pedido", "0")`. -/
def pedKey (p : Json) : Except String Json := do
  let c ← pyGetD p "cabecalho" (.obj [])
  pyGetD c "numero_pedido" (.str "0")

/-- Total version of the sort key, used only where `pedKey` is known to
succeed (inside the guarded sort). -/
def pedKeyD (p : Json) : Json :=
  match pedKey p with
  | .ok k => k
  | .error _ => .str "0"

def keyRank : Json → Nat
  | .null => 0
  | .bool _ => 1
  | .num _ => 1
  | .str _ => 2
  | .arr _ => 3
  | .obj _ => 4

def keyNumVal : Json → Int
  | .num n => n
  | .bool true => 1
  | _ => 0

/-- Python string comparison `a <= b`: lexicographic by code point, a
proper prefix being smaller. -/
def strLexLe : List Char → List Char → Bool
  | [], _ => true
  | _ :: _, [] => false
  | a :: as, b :: bs => if a = b then strLexLe as bs else decide (a.toNat < b.toNat)

/-- A total preorder on JSON values agreeing with Python `<=` on pairs of
strings and on pairs of numbers/bools (the only pairs the guarded sort
ever compares); the rank part makes it total so that the merge-sort lemmas
apply. -/
def jKeyLe (x y : Json) : Bool :=
  if keyRank x < keyRank y then true
  else if keyRank y < keyRank x then false
  else match x, y with
    | .str a, .str b => strLexLe a.data b.data
    | .num _, _ => decide (keyNumVal x ≤ keyNumVal y)
    | .bool _, _ => decide (keyNumVal x ≤ keyNumVal y)
    | _, _ => true

def isStrJ : Json → Bool
  | .str _ => true
  | _ => false

def isNumLike : Json → Bool
  | .num _ => true
  | .bool _ => true
  | _ => false

/-- Whether Python `sorted` succeeds on these keys: at most one element
needs no comparison; otherwise all keys must be mutually comparable, i.e.
all strings or all numbers/bools. -/
def sortableKeys (ks : List Json) : Bool :=
  ks.length ≤ 1 || ks.all isStrJ || ks.all isNumLike

/-- Descending comparison used by `sorted(..., reverse=True)`: `a` may
come before `b` when `key(b) <= key(a)`; on ties the stable sort keeps the
upstream order, matching Python. -/
def pedDescLe (a b : Json) : Bool :=
  jKeyLe (pedKeyD b) (pedKeyD a)

/-- Embedding of the guarded sort (server.py lines 242-250): `sorted`
first iterates the value and computes every key; any exception there
(non-iterable value, a record without `.get`) is caught and the upstream
value is kept; with at least two mutually non-comparable keys the
`TypeError` of the comparison is likewise caught; otherwise the result is
the stable descending sort. -/
def sortPedidos (pvp : Json) : Json :=
  match pyIter pvp with
  | .error _ => pvp
  | .ok es =>
    match es.mapM pedKey with
    | .error _ => pvp
    | .ok ks => if sortableKeys ks then .arr (es.mergeSort pedDescLe) else pvp

/-- Formats one line item (server.py lines 261-268). -/
def formatItem (it : Json) : Except String Json := do
  let prod ← pyGetD it "produto" (.obj [])
  let desc ← pyGetD prod "descricao" (.str "N/A")
  let qt ← pyGetD prod "quantidade" (.num 0)
  let vu ← pyGetD prod "valor_unitario" (.num 0)
  let vt ← pyGetD prod "valor_total" (.num 0)
  pure (Json.obj [("descricao_produto", desc), ("quantidade", qt),
                  ("valor_unitario", vu), ("valor_total_item", vt)])

/-- Formats one order (server.py lines 257-276); the item loop runs before
the header fields are read, matching the source's evaluation order. -/
def formatOrder (o : Json) : Except String Json := do
  let cab ← pyGetD o "cabecalho" (.obj [])
  let tot ← pyGetD o "total_pedido" (.obj [])
  let detJ ← pyGetD o "det" (.arr [])
  let dets ← pyIter detJ
  let items ← dets.mapM formatItem
  let np ← pyGetD cab "numero_pedido" (.str "N/A")
  let dp ← pyGetD cab "data_previsao" (.str "N/A")
  let et ← pyGetD cab "etapa" (.str "N/A")
  let vt ← pyGetD tot "valor_total_pedido" (.num 0)
  pure (Json.obj [("numero_pedido", np), ("data_previsao", dp), ("etapa_pedido", et),
                  ("valor_total_pedido", vt), ("itens", .arr items)])

/-- Formats the selected recent orders. -/
def formatPedidos (recent : Json) : Except String (List Json) := do
  let es ← pyIter recent
  es.mapM formatOrder

/-- Result of the `encontrar_pedidos_cliente` tool: a list of formatted
orders or an error/notice string. -/
inductive ToolResult where
  | orders (l : List Json)
  | msg (s : String)

/-- Steps 4-6 of `encontrar_pedidos_cliente` (server.py lines 209-282):
fetch `ListarPedidos` page 1 filtered by the customer id, reject upstream
errors and empty results, sort, take the first 3, format, and reject an
empty formatted list. -/
def buscarPedidos (env : OmieEnv) (cid : Json) : PyM ToolResult := do
  let resp := callOmieApi (env.pedidos cid)
  let errV ← liftE (pyGetD resp "error" .null)
  if pyTruthy errV then do
    let msgV ← liftE (pyGetD resp "message" (.str "Erro desconhecido na API"))
    pure (.msg ("Erro ao buscar pedidos: " ++ pyStr msgV))
  else do
    let pvp ← liftE (pyGetD resp "pedido_venda_produto" .null)
    if !(pyTruthy pvp) then
      pure (.msg ("Nenhum pedido encontrado para o cliente ID: " ++ pyStr cid
        ++ " na página 1. O cliente pode não ter pedidos ou o ID pode ter algum problema."))
    else do
      let recent ← liftE (pySlice3 (sortPedidos pvp))
      let formatted ← liftE (formatPedidos recent)
      if formatted.isEmpty then
        pure (.msg ("Nenhum pedido processado para o cliente ID: " ++ pyStr cid
          ++ ". A lista de pedidos pode estar vazia ou em um formato inesperado."))
      else
        pure (.orders formatted)

/-- The `encontrar_pedidos_cliente` tool (server.py lines 88-282).  The
three hints are JSON values: the tool surface passes strings or None, and
the AI tool passes whatever the parsed Gemini reply held. -/
def encontrarPedidosCliente (env : OmieEnv) (cnpj nomeJ cidadeJ : Json) : PyM ToolResult := do
  if !(pyTruthy cnpj || pyTruthy nomeJ || pyTruthy cidadeJ) then
    pure (.msg "Erro: Forneça ao menos um parâmetro de busca (CNPJ/CPF, Nome Fantasia, ou Cidade).")
  else do
    let normC ← if pyTruthy cnpj then do
        let d ← liftE (pyJoinDigits cnpj)
        Pure.pure (Json.str d)
      else pure Json.null
    let scanOut ← scanAll env cnpj normC nomeJ cidadeJ
    match scanOut with
    | .ret s => pure (.msg s)
    | .cont st => do
      let post ← resolvePost nomeJ st
      match post with
      | .ret s => pure (.msg s)
      | .cont fe =>
        if !(pyTruthy fe.2) || !(pyTruthyOpt fe.1) then
          pure (.msg "Erro: Cliente não encontrado com os critérios fornecidos após verificar todas as páginas.")
        else
          buscarPedidos env fe.2

/-- Outcomes of the Gemini model and its two calls inside
`responder_pergunta_sobre_pedidos`: whether `GenerativeModel` construction
succeeded, and the text of each reply (`none` models a raised exception
from `generate_content_async`). -/
structure IaEnv where
  modelInitOk : Bool
  respostaAnalise : Option String
  respostaFinal : Option String

/-- The `responder_pergunta_sobre_pedidos` tool (server.py lines 286-401),
with `json.loads` as the explicit parameter `loads` (`none` models
`json.JSONDecodeError`).  Note that `dados_interpretados.get(...)` runs
outside the try/except, so a reply parsing to a non-dict JSON value makes
`pyGetD` raise past the tool. -/
def responderPerguntaSobrePedidos (loads : String → Option Json) (ia : IaEnv) (env : OmieEnv)
    (_perguntaUsuario : String) : PyM String :=
  if !ia.modelInitOk then
    pure "Desculpe, estou com problemas para acessar minha inteligência artificial no momento."
  else
    match ia.respostaAnalise with
    | none => pure "Desculpe, ocorreu um erro ao tentar entender sua pergunta com a IA."
    | some raw =>
      match loads (stripFence raw) with
      | none => pure "Desculpe, não consegui entender completamente sua pergunta. Tente reformular."
      | some dados => do
        let sobre ← liftE (pyGetD dados "sobre_pedidos" .null)
        if !(pyTruthy sobre) then
          pure "Desculpe, só posso ajudar com perguntas relacionadas a pedidos de clientes."
        else do
          let cnpjIa ← liftE (pyGetD dados "cnpj_cpf" .null)
          let nomeIa ← liftE (pyGetD dados "nome_fantasia" .null)
          let cidadeIa ← liftE (pyGetD dados "cidade" .null)
          let _perguntaIa ← liftE (pyGetD dados "pergunta_especifica" .null)
          if !(pyTruthy cnpjIa || pyTruthy nomeIa || pyTruthy cidadeIa) then
            pure "Para responder sua pergunta sobre pedidos, preciso que você me informe o CNPJ/CPF, Nome Fantasia ou a Cidade do cliente."
          else do
            let pedidosData ← encontrarPedidosCliente env cnpjIa nomeIa cidadeIa
            match pedidosData with
            | .msg s => pure ("Não consegui encontrar os pedidos. Detalhes: " ++ s)
            | .orders l =>
              if l.isEmpty then
                pure ("Não encontrei pedidos para o cliente informado (CNPJ/CPF: " ++ pyStr cnpjIa
                  ++ ", Nome: " ++ pyStr nomeIa ++ ", Cidade: " ++ pyStr cidadeIa
                  ++ "). Verifique os dados ou o cliente pode não ter pedidos.")
              else
                match ia.respostaFinal with
                | none => pure "Desculpe, consegui buscar os dados dos pedidos, mas tive um problema ao formular a resposta final."
                | some r => pure r

/-- A directory oracle whose every page is a 2xx JSON object carrying a
fixed `total_de_paginas` and the given records — the shape of a normal
`ListarClientes` response. -/
def mkClientesEnv (tp : Int) (pages : Nat → List Json) (ped : Json → HttpOutcome) : OmieEnv :=
  { clientes := fun p _f =>
      .success 200 (.obj [("total_de_paginas", .num tp), ("clientes_cadastro", .arr (pages p))]),
    pedidos := ped }

/-- The normalized tax-id value as the tool computes it, for stating trace
bounds (when the normalization raises, no page beyond 1 is fetched
anyway). -/
def normCOf (cnpj : Json) : Json :=
  if pyTruthy cnpj then
    match pyJoinDigits cnpj with
    | .ok d => .str d
    | .error _ => .null
  else .null

/-- The total-page bound as read from the page-1 response (default 1),
clamped to a natural number; non-numeric values never let the loop pass
page 1. -/
def pageOneTpNat (env : OmieEnv) (filt : Json) : Nat :=
  match callOmieApi (env.clientes 1 filt) with
  | .obj kvs =>
    match (jlookup kvs "total_de_paginas").getD (.num 1) with
    | .num n => n.toNat
    | _ => 1
  | _ => 1

/-- Rewrites the `total_de_paginas` binding of a JSON object body by `g`,
leaving everything else intact. -/
def mapTpVal (g : Json → Json) : Json → Json
  | .obj kvs => .obj (kvs.map (fun kv =>
      if kv.1 = "total_de_paginas" then (kv.1, g kv.2) else kv))
  | j => j

/-- The same directory, except that every page from 2 on reports a
`total_de_paginas` value rewritten by `g p`. -/
def tweakLaterTp (env : OmieEnv) (g : Nat → Json → Json) : OmieEnv :=
  { clientes := fun p f =>
      if 2 ≤ p then
        match env.clientes p f with
        | .success st body => .success st (mapTpVal (g p) body)
        | o => o
      else env.clientes p f,
    pedidos := env.pedidos }

/-- A JSON text wrapped in a labeled fenced code block, as Gemini often
replies. -/
def wrapFenceLabeled (j : String) : String :=
  String.mk ("```json\n".data ++ j.data ++ "\n```".data)

/-- A JSON text wrapped in an unlabeled fenced code block. -/
def wrapFencePlain (j : String) : String :=
  String.mk ("```\n".data ++ j.data ++ "\n```".data)

/-- A well-formed directory record: a JSON object whose `cnpj_cpf` and
`nome_fantasia` fields, when present, are strings — the shape every real
`ListarClientes` record has, and exactly what the scan loop needs in order
not to raise. -/
def strOrAbsent (kvs : List (String × Json)) (k : String) : Bool :=
  match jlookup kvs k with
  | none => true
  | some (.str _) => true
  | some _ => false

def wfRec : Json → Bool
  | .obj kvs => strOrAbsent kvs "cnpj_cpf" && strOrAbsent kvs "nome_fantasia"
  | _ => false

/-- The digits of a record's `cnpj_cpf` (empty when absent). -/
def recDigits : Json → String
  | .obj kvs =>
    match (jlookup kvs "cnpj_cpf").getD (.str "") with
    | .str s => String.mk (s.data.filter Char.isDigit)
    | _ => ""
  | _ => ""

/-- A record's `codigo_cliente_omie` (None when absent). -/
def recId : Json → Json
  | .obj kvs => (jlookup kvs "codigo_cliente_omie").getD .null
  | _ => .null

/-- Case-insensitive substring match of the name hint against a record's
`nome_fantasia`. -/
def nameMatchB (nm : String) : Json → Bool
  | .obj kvs =>
    match (jlookup kvs "nome_fantasia").getD (.str "") with
    | .str s => strIn (String.mk (nm.data.map Char.toLower)) (String.mk (s.data.map Char.toLower))
    | _ => false
  | _ => false

/-- A matched record's display name as a string. -/
def nameStrOf : Json → String
  | .obj kvs =>
    match jlookup kvs "nome_fantasia" with
    | some (.str s) => s
    | _ => ""
  | _ => ""

/-- The name matches collected over the given pages, in scan order. -/
def collectNameHits (nm : String) (pages : Nat → List Json) : List Nat → List Json
  | [] => []
  | p :: ps => (pages p).filter (nameMatchB nm) ++ collectNameHits nm pages ps

/-- Pages 1, 2, …, p. -/
def rangeTo (p : Nat) : List Nat :=
  List.range' 1 p

/-- Dict-key membership via Python equality. -/
def bMem (ks : List Json) (k : Json) : Bool :=
  ks.any (fun k1 => Json.beq k1 k)

/-- Every page number a computation appends to the trace satisfies `P`. -/
def TraceP {α : Type} (x : PyM α) (P : Nat → Prop) : Prop :=
  ∀ tr, ∃ ext, (x tr).2 = tr ++ ext ∧ ∀ p ∈ ext, P p

/-- Observer distinguishing a returned order list from an error string. -/
def isOrdersB : ToolResult → Bool
  | .orders _ => true
  | .msg _ => false

/-- Every order's sort key exists and is a string (the shape of real
`ListarPedidos` records, whose `numero_pedido` is a string). -/
def allStrPedKeys (l : List Json) : Bool :=
  l.all (fun r => match pedKey r with
    | .ok (.str _) => true
    | _ => false)

/-! ## Proof infrastructure -/

theorem PyM.pure_apply {α : Type} (a : α) (tr : List Nat) :
    (Pure.pure a : PyM α) tr = (.ok a, tr) := rfl

theorem PyM.bind_apply {α β : Type} (x : PyM α) (f : α → PyM β) (tr : List Nat) :
    (x >>= f) tr = match x tr with
      | (.ok a, tr1) => f a tr1
      | (.error e, tr1) => (.error e, tr1) := rfl

theorem liftE_apply {α : Type} (e : Except String α) (tr : List Nat) :
    liftE e tr = (e, tr) := rfl

theorem logPage_apply (p : Nat) (tr : List Nat) :
    logPage p tr = (.ok (), tr ++ [p]) := rfl

/-! ## C9: in-band fault detection of call_omie_api -/

/-- C9 counterexample: a body that *contains* a `faultstring` key whose
value is falsy (the empty string) is NOT converted to the uniform error
object — `call_omie_api` returns the payload unchanged, because the code
tests truthiness of the values, not presence of the keys. -/
theorem C9_counterexample_falsy_fault :
    callOmieApi (.success 200 (.obj [("faultstring", .str "")]))
      = .obj [("faultstring", .str "")] := rfl

/-- C9 (amended): a 2xx JSON-object body is converted to the uniform error
object `{error, status_code, message}` exactly when its `faultstring` or
`faultcode` value is truthy, regardless of the HTTP status; fault keys
holding falsy values are not detected and the payload is returned as
success. -/
theorem C9_fault_detection_amended :
    (∀ (status : Nat) (kvs : List (String × Json)),
      (pyTruthy ((jlookup kvs "faultstring").getD .null)
        || pyTruthy ((jlookup kvs "faultcode").getD .null)) = true →
      callOmieApi (.success status (.obj kvs))
        = errObj (some status) ((jlookup kvs "faultstring").getD (.str "Erro desconhecido da Omie")))
    ∧ (∀ (status : Nat) (kvs : List (String × Json)),
      (pyTruthy ((jlookup kvs "faultstring").getD .null)
        || pyTruthy ((jlookup kvs "faultcode").getD .null)) = false →
      callOmieApi (.success status (.obj kvs)) = .obj kvs) := by
  constructor
  · intro status kvs h
    simp only [callOmieApi]
    rw [if_pos]
    simpa using h
  · intro status kvs h
    simp only [callOmieApi]
    rw [if_neg]
    simp only [Bool.or_eq_false_iff] at h
    simp [h.1, h.2]

/-- Witness for `C9_fault_detection_amended` at concrete inputs: a truthy
`faultcode` on HTTP 500 becomes the uniform error object (with the default
message, since `faultstring` is absent), and the falsy-`faultstring` body
of the counterexample is passed through. -/
theorem C9_fault_detection_amended_witness :
    callOmieApi (.success 500 (.obj [("faultcode", .num 7)]))
      = errObj (some 500) (.str "Erro desconhecido da Omie")
    ∧ callOmieApi (.success 404 (.obj [("faultstring", .str ""), ("x", .num 1)]))
      = .obj [("faultstring", .str ""), ("x", .num 1)] :=
  ⟨C9_fault_detection_amended.1 500 [("faultcode", .num 7)] (by decide),
   C9_fault_detection_amended.2 404 [("faultstring", .str ""), ("x", .num 1)] (by decide)⟩

/-! ## String-stripping lemmas for the fence handling -/

theorem dropWhile_pyWs_cons_of_false {c : Char} (h : pyWsChar c = false) (cs : List Char) :
    List.dropWhile pyWsChar (c :: cs) = c :: cs := by
  simp [List.dropWhile_cons, h]

theorem pyStrip_of_ends {a b : Char} (ha : pyWsChar a = false) (hb : pyWsChar b = false)
    (mid : List Char) : pyStrip (a :: (mid ++ [b])) = a :: (mid ++ [b]) := by
  unfold pyStrip
  rw [dropWhile_pyWs_cons_of_false ha]
  have hrev : (a :: (mid ++ [b])).reverse = b :: (a :: mid).reverse := by
    rw [show a :: (mid ++ [b]) = (a :: mid) ++ [b] from rfl, List.reverse_append]
    simp
  rw [hrev, dropWhile_pyWs_cons_of_false hb]
  simp

theorem dropWhile_pyWs_nl (cs : List Char) :
    List.dropWhile pyWsChar ('\n' :: cs) = List.dropWhile pyWsChar cs := by
  rw [List.dropWhile_cons, if_pos (show pyWsChar '\n' = true from rfl)]

theorem pyStrip_nl_wrap {a b : Char} (ha : pyWsChar a = false) (hb : pyWsChar b = false)
    (mid : List Char) :
    pyStrip ('\n' :: ((a :: (mid ++ [b])) ++ ['\n'])) = a :: (mid ++ [b]) := by
  unfold pyStrip
  rw [show ('\n' :: ((a :: (mid ++ [b])) ++ ['\n'])) = '\n' :: (a :: ((mid ++ [b]) ++ ['\n']))
    from by simp]
  rw [dropWhile_pyWs_nl, dropWhile_pyWs_cons_of_false ha]
  have hrev : (a :: ((mid ++ [b]) ++ ['\n'])).reverse = '\n' :: (b :: (a :: mid).reverse) := by
    simp
  rw [hrev, dropWhile_pyWs_nl, dropWhile_pyWs_cons_of_false hb]
  simp

theorem leadEq_json_fence (cs : List Char) :
    leadEq "```json".data ('`' :: '`' :: '`' :: 'j' :: 's' :: 'o' :: 'n' :: cs) = true := rfl

theorem leadEq_json_on_plain (cs : List Char) :
    leadEq "```json".data ('`' :: '`' :: '`' :: '\n' :: cs) = false := rfl

theorem leadEq_fence (cs : List Char) :
    leadEq "```".data ('`' :: '`' :: '`' :: cs) = true := rfl

theorem leadEq_json_on_obj (cs : List Char) :
    leadEq "```json".data ('{' :: cs) = false := rfl

theorem leadEq_fence_on_obj (cs : List Char) :
    leadEq "```".data ('{' :: cs) = false := rfl

theorem stripFenceChars_labeled (mid : List Char) :
    stripFenceChars ("```json\n".data ++ (('{' :: (mid ++ ['}'])) ++ "\n```".data))
      = '{' :: (mid ++ ['}']) := by
  rw [show ("```json\n".data ++ (('{' :: (mid ++ ['}'])) ++ "\n```".data))
      = '`' :: (('`' :: '`' :: 'j' :: 's' :: 'o' :: 'n' :: '\n' :: '{' :: (mid ++ ['}', '\n', '`', '`'])) ++ ['`'])
    from by simp]
  have hps := pyStrip_of_ends (show pyWsChar '`' = false from rfl) (show pyWsChar '`' = false from rfl)
    ('`' :: '`' :: 'j' :: 's' :: 'o' :: 'n' :: '\n' :: '{' :: (mid ++ ['}', '\n', '`', '`']))
  simp only [stripFenceChars, hps]
  rw [show ('`' :: (('`' :: '`' :: 'j' :: 's' :: 'o' :: 'n' :: '\n' :: '{' :: (mid ++ ['}', '\n', '`', '`'])) ++ ['`']))
      = '`' :: '`' :: '`' :: 'j' :: 's' :: 'o' :: 'n' :: '\n' :: '{' :: (mid ++ ['}', '\n', '`', '`', '`'])
    from by simp]
  rw [leadEq_json_fence]
  simp only [if_true]
  rw [show List.drop 7 ('`' :: '`' :: '`' :: 'j' :: 's' :: 'o' :: 'n' :: '\n' :: '{' :: (mid ++ ['}', '\n', '`', '`', '`']))
      = ('\n' :: '{' :: mid) ++ ['}', '\n', '`', '`', '`'] from by simp]
  rw [show (('\n' :: '{' :: mid) ++ ['}', '\n', '`', '`', '`']).length - 3
      = ('\n' :: '{' :: mid).length + 2 from by simp]
  rw [List.take_append]
  rw [show (('\n' :: '{' :: mid) ++ List.take 2 ['}', '\n', '`', '`', '`'])
      = '\n' :: (('{' :: (mid ++ ['}'])) ++ ['\n']) from by simp]
  exact pyStrip_nl_wrap (show pyWsChar '{' = false from rfl) (show pyWsChar '}' = false from rfl) mid

theorem stripFenceChars_plain (mid : List Char) :
    stripFenceChars ("```\n".data ++ (('{' :: (mid ++ ['}'])) ++ "\n```".data))
      = '{' :: (mid ++ ['}']) := by
  rw [show ("```\n".data ++ (('{' :: (mid ++ ['}'])) ++ "\n```".data))
      = '`' :: (('`' :: '`' :: '\n' :: '{' :: (mid ++ ['}', '\n', '`', '`'])) ++ ['`'])
    from by simp]
  have hps := pyStrip_of_ends (show pyWsChar '`' = false from rfl) (show pyWsChar '`' = false from rfl)
    ('`' :: '`' :: '\n' :: '{' :: (mid ++ ['}', '\n', '`', '`']))
  simp only [stripFenceChars, hps]
  rw [show ('`' :: (('`' :: '`' :: '\n' :: '{' :: (mid ++ ['}', '\n', '`', '`'])) ++ ['`']))
      = '`' :: '`' :: '`' :: '\n' :: '{' :: (mid ++ ['}', '\n', '`', '`', '`'])
    from by simp]
  rw [leadEq_json_on_plain, leadEq_fence]
  simp only [if_true, Bool.false_eq_true, if_false]
  rw [show List.drop 3 ('`' :: '`' :: '`' :: '\n' :: '{' :: (mid ++ ['}', '\n', '`', '`', '`']))
      = ('\n' :: '{' :: mid) ++ ['}', '\n', '`', '`', '`'] from by simp]
  rw [show (('\n' :: '{' :: mid) ++ ['}', '\n', '`', '`', '`']).length - 3
      = ('\n' :: '{' :: mid).length + 2 from by simp]
  rw [List.take_append]
  rw [show (('\n' :: '{' :: mid) ++ List.take 2 ['}', '\n', '`', '`', '`'])
      = '\n' :: (('{' :: (mid ++ ['}'])) ++ ['\n']) from by simp]
  exact pyStrip_nl_wrap (show pyWsChar '{' = false from rfl) (show pyWsChar '}' = false from rfl) mid

theorem stripFenceChars_obj_id (mid : List Char) :
    stripFenceChars ('{' :: (mid ++ ['}'])) = '{' :: (mid ++ ['}']) := by
  have hps := pyStrip_of_ends (show pyWsChar '{' = false from rfl) (show pyWsChar '}' = false from rfl) mid
  simp only [stripFenceChars, hps]
  rw [leadEq_json_on_obj, leadEq_fence_on_obj]
  simp

/-! ## C8: fence-stripped replies parse identically -/

/-- C8: for every JSON object text `J` (a string of the form
`{ … }`), the analysis-reply handling extracts the same JSON text from `J`
wrapped in a labeled (```json) or unlabeled (```) fenced code block as
from the unwrapped reply — hence `json.loads` receives the same text, the
parsed interpreted-question data coincide, and the whole
`responder_pergunta_sobre_pedidos` tool behaves identically on the three
reply shapes. -/
theorem C8_fence_stripping_invariant (mid : List Char) (J : String)
    (hJ : J.data = '{' :: (mid ++ ['}'])) :
    stripFence (wrapFenceLabeled J) = J
    ∧ stripFence (wrapFencePlain J) = J
    ∧ stripFence J = J
    ∧ ∀ (loads : String → Option Json) (env : OmieEnv) (mi : Bool) (fin : Option String)
        (q : String),
        responderPerguntaSobrePedidos loads ⟨mi, some (wrapFenceLabeled J), fin⟩ env q
          = responderPerguntaSobrePedidos loads ⟨mi, some J, fin⟩ env q
        ∧ responderPerguntaSobrePedidos loads ⟨mi, some (wrapFencePlain J), fin⟩ env q
          = responderPerguntaSobrePedidos loads ⟨mi, some J, fin⟩ env q := by
  have h3 : stripFence J = J := by
    show String.mk (stripFenceChars J.data) = J
    rw [hJ, stripFenceChars_obj_id, ← hJ]
  have h1 : stripFence (wrapFenceLabeled J) = J := by
    show String.mk (stripFenceChars ("```json\n".data ++ J.data ++ "\n```".data)) = J
    rw [hJ]
    rw [show ("```json\n".data ++ ('{' :: (mid ++ ['}'])) ++ "\n```".data)
        = ("```json\n".data ++ (('{' :: (mid ++ ['}'])) ++ "\n```".data)) from by simp]
    rw [stripFenceChars_labeled, ← hJ]
  have h2 : stripFence (wrapFencePlain J) = J := by
    show String.mk (stripFenceChars ("```\n".data ++ J.data ++ "\n```".data)) = J
    rw [hJ]
    rw [show ("```\n".data ++ ('{' :: (mid ++ ['}'])) ++ "\n```".data)
        = ("```\n".data ++ (('{' :: (mid ++ ['}'])) ++ "\n```".data)) from by simp]
    rw [stripFenceChars_plain, ← hJ]
  refine ⟨h1, h2, h3, ?_⟩
  intro loads env mi fin q
  constructor
  · simp only [responderPerguntaSobrePedidos, h1, h3]
  · simp only [responderPerguntaSobrePedidos, h2, h3]

/-- Witness for `C8_fence_stripping_invariant` at the concrete object text
`{"a": 1}`. -/
theorem C8_fence_stripping_invariant_witness :
    stripFence (wrapFenceLabeled "\x7b\"a\": 1\x7d") = "\x7b\"a\": 1\x7d"
    ∧ stripFence (wrapFencePlain "\x7b\"a\": 1\x7d") = "\x7b\"a\": 1\x7d" :=
  ⟨(C8_fence_stripping_invariant "\"a\": 1".data "\x7b\"a\": 1\x7d" rfl).1,
   (C8_fence_stripping_invariant "\"a\": 1".data "\x7b\"a\": 1\x7d" rfl).2.1⟩

/-! ## C7: the guarded descending sort of orders -/

theorem char_toNat_ne_of_ne {a b : Char} (h : a ≠ b) : a.toNat ≠ b.toNat := by
  intro he
  exact h (Char.eq_of_val_eq (UInt32.toNat.inj he))

theorem strLexLe_total : ∀ a b : List Char, (strLexLe a b || strLexLe b a) = true := by
  intro a
  induction a with
  | nil => intro b; simp [strLexLe]
  | cons x xs ih =>
    intro b
    cases b with
    | nil => simp [strLexLe]
    | cons y ys =>
      by_cases hxy : x = y
      · subst hxy
        simpa [strLexLe] using ih ys
      · have h1 : strLexLe (x :: xs) (y :: ys) = decide (x.toNat < y.toNat) := by
          simp [strLexLe, hxy]
        have h2 : strLexLe (y :: ys) (x :: xs) = decide (y.toNat < x.toNat) := by
          simp [strLexLe, Ne.symm hxy]
        rw [h1, h2]
        have := char_toNat_ne_of_ne hxy
        simp only [Bool.or_eq_true, decide_eq_true_eq]
        omega

theorem strLexLe_trans : ∀ a b c : List Char,
    strLexLe a b = true → strLexLe b c = true → strLexLe a c = true := by
  intro a
  induction a with
  | nil => intro b c _ _; simp [strLexLe]
  | cons x xs ih =>
    intro b c h1 h2
    cases b with
    | nil => simp [strLexLe] at h1
    | cons y ys =>
      cases c with
      | nil => simp [strLexLe] at h2
      | cons z zs =>
        by_cases hxy : x = y
        · subst hxy
          by_cases hyz : x = z
          · subst hyz
            simp only [strLexLe, if_pos rfl] at h1 h2 ⊢
            exact ih ys zs h1 h2
          · simp only [strLexLe, if_pos rfl] at h1
            simpa [strLexLe, hyz] using h2
        · by_cases hyz : y = z
          · subst hyz
            simpa [strLexLe, hxy] using h1
          · by_cases hxz : x = z
            · subst hxz
              simp only [strLexLe, if_neg hxy, decide_eq_true_eq] at h1
              simp only [strLexLe, if_neg (show y ≠ x from fun h => hxy h.symm),
                decide_eq_true_eq] at h2
              exact absurd h1 (by omega)
            · simp only [strLexLe, if_neg hxy] at h1
              simp only [strLexLe, if_neg hyz] at h2
              simp only [strLexLe, if_neg hxz, decide_eq_true_eq] at h1 h2 ⊢
              omega

theorem jKeyLe_total : ∀ x y : Json, (jKeyLe x y || jKeyLe y x) = true := by
  intro x y
  rcases x with _ | bx | nx | sx | ax | ox <;> rcases y with _ | byy | ny | sy | ay | oy <;>
    (try rcases bx) <;> (try rcases byy) <;>
    simp only [jKeyLe, keyRank, keyNumVal] <;>
    norm_num <;>
    first
      | (simpa using strLexLe_total _ _)
      | omega

set_option maxHeartbeats 1000000 in
theorem jKeyLe_trans : ∀ x y z : Json,
    jKeyLe x y = true → jKeyLe y z = true → jKeyLe x z = true := by
  intro x y z h1 h2
  rcases x with _ | bx | nx | sx | ax | ox <;> rcases y with _ | byy | ny | sy | ay | oy <;>
    rcases z with _ | bz | nz | sz | az | oz <;>
    (try rcases bx) <;> (try rcases byy) <;> (try rcases bz) <;>
    simp only [jKeyLe, keyRank, keyNumVal] at h1 h2 ⊢ <;>
    (try norm_num at h1 h2 ⊢) <;>
    first
      | (exact strLexLe_trans _ _ _ h1 h2)
      | omega

theorem pedDescLe_trans : ∀ a b c : Json,
    pedDescLe a b = true → pedDescLe b c = true → pedDescLe a c = true := by
  intro a b c h1 h2
  exact jKeyLe_trans _ _ _ h2 h1

theorem pedDescLe_total : ∀ a b : Json, (pedDescLe a b || pedDescLe b a) = true := by
  intro a b
  exact jKeyLe_total (pedKeyD b) (pedKeyD a)

theorem pedKeys_str : ∀ l : List Json, allStrPedKeys l = true →
    l.mapM pedKey = Except.ok (l.map pedKeyD) ∧ (l.map pedKeyD).all isStrJ = true := by
  intro l
  induction l with
  | nil => intro _; exact ⟨rfl, rfl⟩
  | cons r rest ih =>
    intro h
    rcases hk : pedKey r with e | k
    · exfalso; simp [allStrPedKeys, List.all_cons, hk] at h
    · rcases k with _ | b | n | s | ar | ob
      all_goals (try (exfalso; simp [allStrPedKeys, List.all_cons, hk] at h; done))
      have hrest : allStrPedKeys rest = true := by
        simp only [allStrPedKeys, List.all_cons, hk, Bool.and_eq_true] at h
        exact h.2
      obtain ⟨ihm, ihs⟩ := ih hrest
      constructor
      · rw [List.mapM_cons pedKey, hk, ihm]
        show Except.ok (Json.str s :: List.map pedKeyD rest) = _
        simp [pedKeyD, hk]
      · simp [pedKeyD, hk, isStrJ, ihs]

unseal List.merge List.mergeSort in
/-- C7: the order-sorting step is total by construction (every exception
of `sorted` is caught and falls back to the upstream value), and: with all
sort keys strings it produces the stable descending lexicographic
permutation of the orders — in particular the keys `"10"`, `"9"` come out
`"9"` before `"10"` — while mutually non-comparable keys (here a string
next to a number) leave the upstream order unchanged; the first 3 of the
resulting sequence are then passed on to formatting. -/
theorem C7_order_sort_policy :
    (∀ l : List Json, allStrPedKeys l = true →
      sortPedidos (.arr l) = .arr (l.mergeSort pedDescLe)
      ∧ List.Pairwise (fun a b => jKeyLe (pedKeyD b) (pedKeyD a) = true) (l.mergeSort pedDescLe)
      ∧ (l.mergeSort pedDescLe).Perm l)
    ∧ sortPedidos (.arr
        [.obj [("cabecalho", .obj [("numero_pedido", .str "10")])],
         .obj [("cabecalho", .obj [("numero_pedido", .str "9")])]])
      = .arr
        [.obj [("cabecalho", .obj [("numero_pedido", .str "9")])],
         .obj [("cabecalho", .obj [("numero_pedido", .str "10")])]]
    ∧ sortPedidos (.arr
        [.obj [("cabecalho", .obj [("numero_pedido", .str "9")])],
         .obj [("cabecalho", .obj [("numero_pedido", .num 7)])]])
      = .arr
        [.obj [("cabecalho", .obj [("numero_pedido", .str "9")])],
         .obj [("cabecalho", .obj [("numero_pedido", .num 7)])]]
    ∧ (∀ l : List Json, pySlice3 (.arr l) = .ok (.arr (l.take 3))) := by
  refine ⟨?_, rfl, rfl, fun l => rfl⟩
  intro l h
  obtain ⟨hm, hs⟩ := pedKeys_str l h
  have hsort : sortPedidos (.arr l) = .arr (l.mergeSort pedDescLe) := by
    have h1 : sortPedidos (.arr l) = (match l.mapM pedKey with
      | .error _ => Json.arr l
      | .ok ks => if sortableKeys ks then .arr (l.mergeSort pedDescLe) else .arr l) := rfl
    rw [h1, hm]
    show (if sortableKeys (List.map pedKeyD l) = true then Json.arr (l.mergeSort pedDescLe)
      else Json.arr l) = Json.arr (l.mergeSort pedDescLe)
    rw [if_pos (show sortableKeys (l.map pedKeyD) = true from by simp [sortableKeys, hs])]
  refine ⟨hsort, ?_, List.mergeSort_perm l _⟩
  exact @List.sorted_mergeSort _ pedDescLe
    (fun a b c => pedDescLe_trans a b c) (fun a b => pedDescLe_total a b) l

/-- Witness for `C7_order_sort_policy` on a concrete all-string-key order
list. -/
theorem C7_order_sort_policy_witness :
    allStrPedKeys
      [.obj [("cabecalho", .obj [("numero_pedido", .str "10")])],
       .obj [("cabecalho", .obj [("numero_pedido", .str "9")])]] = true
    ∧ sortPedidos (.arr
        [.obj [("cabecalho", .obj [("numero_pedido", .str "10")])],
         .obj [("cabecalho", .obj [("numero_pedido", .str "9")])]])
      = .arr
        ([.obj [("cabecalho", .obj [("numero_pedido", .str "10")])],
          .obj [("cabecalho", .obj [("numero_pedido", .str "9")])]].mergeSort pedDescLe) :=
  ⟨rfl,
   (C7_order_sort_policy.1
     [.obj [("cabecalho", .obj [("numero_pedido", .str "10")])],
      .obj [("cabecalho", .obj [("numero_pedido", .str "9")])]] rfl).1⟩

/-! ## C1: the tool surface can raise unhandled exceptions -/

/-- C1: two concrete runs where a tool operation raises an unhandled
exception instead of returning a value.  First, the AI tool with an LLM
analysis reply `"[1, 2]"` — valid JSON that is not an object — passes
`json.loads` and then raises `AttributeError` at
`dados_interpretados.get("sobre_pedidos")`, which sits outside the
try/except.  Second, `encontrar_pedidos_cliente` with a tax-id hint
scanning a directory page whose record carries `"cnpj_cpf": null` raises
`TypeError` at `''.join(filter(str.isdigit, cliente_in_list.get("cnpj_cpf", "")))`. -/
theorem C1_unhandled_exceptions :
    (responderPerguntaSobrePedidos
        (fun s => if s = "[1, 2]" then some (.arr [.num 1, .num 2]) else none)
        ⟨true, some "[1, 2]", some "ok"⟩
        (mkClientesEnv 1 (fun _ => []) (fun _ => .requestError "n/a"))
        "pergunta") []
      = (.error "AttributeError: valor sem método get", [])
    ∧ (encontrarPedidosCliente
        (mkClientesEnv 1 (fun p => if p = 1 then [.obj [("cnpj_cpf", .null)]] else [])
          (fun _ => .requestError "n/a"))
        (.str "158.691.588-69") .null .null) []
      = (.error "TypeError: None não é iterável", [1]) :=
  ⟨rfl, rfl⟩

/-! ## C3: the single-distinct-name dedup picks the last record -/

unseal List.merge List.mergeSort in
/-- C3: with two collected name matches sharing the display name `ACME`
but carrying customer ids 111 (first in scan order) and 222 (second), the
dict comprehension overwrites the value stored under the shared key, so
`list(unique_names.values())[0]` is the LAST collected record: the orders
fetched are those of customer 222, not of the first record 111 that the
spec (and the code's own log message "Usando o primeiro") promise. -/
theorem C3_dedup_resolves_last_record :
    (encontrarPedidosCliente
      (mkClientesEnv 1 (fun p => if p = 1 then
          [.obj [("cnpj_cpf", .str "1"), ("codigo_cliente_omie", .num 111), ("nome_fantasia", .str "ACME")],
           .obj [("cnpj_cpf", .str "2"), ("codigo_cliente_omie", .num 222), ("nome_fantasia", .str "ACME")]]
        else [])
        (fun cid => .success 200 (.obj [("pedido_venda_produto",
          .arr [.obj [("cabecalho", .obj [("numero_pedido", cid)])]])])))
      .null (.str "ACME") .null) []
    = (.ok (.orders [.obj [("numero_pedido", .num 222), ("data_previsao", .str "N/A"),
        ("etapa_pedido", .str "N/A"), ("valor_total_pedido", .num 0), ("itens", .arr [])]]), [1]) :=
  rfl

/-! ## C2 and C4: direct-hit behaviour of the scan -/

unseal List.merge List.mergeSort in
/-- C2 counterexample: two records with the same normalized tax id `111`,
both carrying customer ids.  The scan silently resolves to the FIRST one
(id 5 — its orders are fetched, as the echoed `numero_pedido` shows) and
stops after page 1; no "Múltiplos registros com o mesmo CNPJ/CPF" error is
produced, contrary to the claim. -/
theorem C2_counterexample_silent_first_hit :
    (encontrarPedidosCliente
      (mkClientesEnv 3 (fun p => if p = 1 then
          [.obj [("cnpj_cpf", .str "111"), ("codigo_cliente_omie", .num 5), ("nome_fantasia", .str "A")],
           .obj [("cnpj_cpf", .str "111"), ("codigo_cliente_omie", .num 6), ("nome_fantasia", .str "B")]]
        else [])
        (fun cid => .success 200 (.obj [("pedido_venda_produto",
          .arr [.obj [("cabecalho", .obj [("numero_pedido", cid)])]])])))
      (.str "11-1") .null .null) []
    = (.ok (.orders [.obj [("numero_pedido", .num 5), ("data_previsao", .str "N/A"),
        ("etapa_pedido", .str "N/A"), ("valor_total_pedido", .num 0), ("itens", .arr [])]]), [1]) :=
  rfl

/-- C4 counterexample: exactly one record across all pages matches the
normalized tax id, but it lacks `codigo_cliente_omie`.  Resolution FAILS
with the not-found message, and page 2 is still fetched after the match
was found on page 1 (trace `[1, 2]`), contrary to both halves of the
claim. -/
theorem C4_counterexample_match_without_id :
    (encontrarPedidosCliente
      (mkClientesEnv 2 (fun p => if p = 1 then [.obj [("cnpj_cpf", .str "111")]] else [])
        (fun _ => .requestError "n/a"))
      (.str "111") .null .null) []
    = (.ok (.msg "Erro: Cliente não encontrado com os critérios fornecidos após verificar todas as páginas."),
       [1, 2]) :=
  rfl

/-! ## Scan-loop lemmas -/

theorem liftE_ok_bind {α β : Type} (a : α) (f : α → PyM β) (tr : List Nat) :
    (liftE (.ok a) >>= f) tr = f a tr := rfl

theorem liftE_error_bind {α β : Type} (e : String) (f : α → PyM β) (tr : List Nat) :
    (liftE (.error e) >>= f) tr = (.error e, tr) := rfl

theorem logPage_bind {β : Type} (p : Nat) (f : Unit → PyM β) (tr : List Nat) :
    (logPage p >>= f) tr = f () (tr ++ [p]) := rfl

theorem callOmieApi_obj (h : HttpOutcome) : ∃ kvs, callOmieApi h = .obj kvs := by
  rcases h with ⟨st, body⟩ | ⟨st, text⟩ | m | st
  · rcases body with _ | b | n | s | a | kvs <;> simp [callOmieApi, errObj]
    split <;> simp [errObj]
  all_goals simp [callOmieApi, errObj]

theorem callOmieApi_mk (tp : Int) (rs : List Json) :
    callOmieApi (.success 200 (.obj [("total_de_paginas", .num tp), ("clientes_cadastro", .arr rs)]))
      = .obj [("total_de_paginas", .num tp), ("clientes_cadastro", .arr rs)] := rfl

theorem wfRec_shape {r : Json} (h : wfRec r = true) :
    ∃ kvs s t, r = Json.obj kvs
      ∧ (jlookup kvs "cnpj_cpf").getD (.str "") = .str s
      ∧ (jlookup kvs "nome_fantasia").getD (.str "") = .str t
      ∧ recDigits r = String.mk (s.data.filter Char.isDigit) := by
  rcases r with _ | b | n | s | a | kvs
  case obj =>
    simp only [wfRec, Bool.and_eq_true] at h
    obtain ⟨h1, h2⟩ := h
    have hc : ∃ s, (jlookup kvs "cnpj_cpf").getD (.str "") = Json.str s := by
      rcases hc0 : jlookup kvs "cnpj_cpf" with _ | v
      · exact ⟨"", by simp [hc0]⟩
      · rcases v with _ | b | n | s2 | a | o <;>
          first
            | (exact ⟨s2, by simp [hc0]⟩)
            | simp [strOrAbsent, hc0] at h1
    have hn : ∃ t, (jlookup kvs "nome_fantasia").getD (.str "") = Json.str t := by
      rcases hn0 : jlookup kvs "nome_fantasia" with _ | v
      · exact ⟨"", by simp [hn0]⟩
      · rcases v with _ | b | n | s2 | a | o <;>
          first
            | (exact ⟨s2, by simp [hn0]⟩)
            | simp [strOrAbsent, hn0] at h2
    obtain ⟨s, hs⟩ := hc
    obtain ⟨t, ht⟩ := hn
    exact ⟨kvs, s, t, rfl, hs, ht, by simp [recDigits, hs]⟩
  all_goals simp [wfRec] at h

theorem processRecords_cnpj_nomatch (i nomeJ : Json) (c : String) (hc : c ≠ "")
    (rs : List Json) :
    ∀ (st : St) (tr : List Nat),
    (∀ r ∈ rs, wfRec r = true) → (∀ r ∈ rs, recDigits r ≠ c) →
    (processRecords i (.str c) nomeJ rs st) tr = (.ok (.cont st), tr) := by
  induction rs with
  | nil => intro st tr _ _; rfl
  | cons r rest ih =>
    intro st tr hwf hnm
    obtain ⟨kvs, s, t, hr, hcv, hnv, hd⟩ := wfRec_shape (hwf r (by simp))
    have e1 : pyGetD r "cnpj_cpf" (.str "") = .ok (.str s) := by
      rw [hr]; simp [pyGetD, hcv]
    have e3 : pyGetD r "nome_fantasia" (.str "") = .ok (.str t) := by
      rw [hr]; simp [pyGetD, hnv]
    have hct : pyTruthy (.str c) = true := by simp [pyTruthy, hc]
    have hne : strEqJson (String.mk (List.filter Char.isDigit s.data)) (.str c) = false := by
      have := hnm r (by simp)
      rw [hd] at this
      simp [strEqJson]
      intro he
      exact this (by rw [he])
    simp only [processRecords, e1, e3, pyJoinDigits, liftE_ok_bind, hct, hne, Bool.true_and,
      Bool.and_false, Bool.not_true, Bool.false_eq_true, if_false]
    exact ih st tr (fun x hx => hwf x (by simp [hx])) (fun x hx => hnm x (by simp [hx]))

theorem processRecords_cnpj_match (i nomeJ : Json) (c : String) (hc : c ≠ "")
    (pre : List Json) (r : Json) (post : List Json) :
    ∀ (st : St) (tr : List Nat),
    (∀ x ∈ pre, wfRec x = true) → (∀ x ∈ pre, recDigits x ≠ c) →
    wfRec r = true → recDigits r = c → st.found = none →
    (processRecords i (.str c) nomeJ (pre ++ r :: post) st) tr
      = (.ok (.cont ⟨some r, recId r, st.byName⟩), tr) := by
  induction pre with
  | nil =>
    intro st tr _ _ hwr hdr hf
    obtain ⟨kvs, s, t, hr, hcv, hnv, hd⟩ := wfRec_shape hwr
    have e1 : pyGetD r "cnpj_cpf" (.str "") = .ok (.str s) := by
      rw [hr]; simp [pyGetD, hcv]
    have e3 : pyGetD r "nome_fantasia" (.str "") = .ok (.str t) := by
      rw [hr]; simp [pyGetD, hnv]
    have e4 : pyGetD r "codigo_cliente_omie" .null = .ok (recId r) := by
      rw [hr]; simp [pyGetD, recId]
    have hct : pyTruthy (.str c) = true := by simp [pyTruthy, hc]
    have heq : strEqJson (String.mk (List.filter Char.isDigit s.data)) (.str c) = true := by
      have : String.mk (List.filter Char.isDigit s.data) = c := hd.symm.trans hdr
      simp [strEqJson, this]
    simp only [List.nil_append, processRecords, e1, e3, e4, pyJoinDigits, liftE_ok_bind, hct,
      heq, Bool.true_and, if_true, hf, PyM.pure_apply]
  | cons q pre ih =>
    intro st tr hwf hnm hwr hdr hf
    obtain ⟨kvs, s, t, hq, hcv, hnv, hd⟩ := wfRec_shape (hwf q (by simp))
    have e1 : pyGetD q "cnpj_cpf" (.str "") = .ok (.str s) := by
      rw [hq]; simp [pyGetD, hcv]
    have e3 : pyGetD q "nome_fantasia" (.str "") = .ok (.str t) := by
      rw [hq]; simp [pyGetD, hnv]
    have hct : pyTruthy (.str c) = true := by simp [pyTruthy, hc]
    have hne : strEqJson (String.mk (List.filter Char.isDigit s.data)) (.str c) = false := by
      have := hnm q (by simp)
      rw [hd] at this
      simp [strEqJson]
      intro he
      exact this (by rw [he])
    simp only [List.cons_append, processRecords, e1, e3, pyJoinDigits, liftE_ok_bind, hct, hne,
      Bool.true_and, Bool.and_false, Bool.not_true, Bool.false_eq_true, if_false]
    exact ih st tr (fun x hx => hwf x (by simp [hx])) (fun x hx => hnm x (by simp [hx])) hwr hdr hf

theorem processRecords_name_collect (i : Json) (nm : String) (hn : nm ≠ "") (rs : List Json) :
    ∀ (st : St) (tr : List Nat), (∀ r ∈ rs, wfRec r = true) →
    (processRecords i .null (.str nm) rs st) tr
      = (.ok (.cont ⟨st.found, st.custId, st.byName ++ rs.filter (nameMatchB nm)⟩), tr) := by
  induction rs with
  | nil => intro st tr _; simp [processRecords, PyM.pure_apply]
  | cons r rest ih =>
    intro st tr hwf
    obtain ⟨kvs, s, t, hr, hcv, hnv, hd⟩ := wfRec_shape (hwf r (by simp))
    have e1 : pyGetD r "cnpj_cpf" (.str "") = .ok (.str s) := by
      rw [hr]; simp [pyGetD, hcv]
    have e3 : pyGetD r "nome_fantasia" (.str "") = .ok (.str t) := by
      rw [hr]; simp [pyGetD, hnv]
    have hnt : pyTruthy (.str nm) = true := by simp [pyTruthy, hn]
    have hc0 : pyTruthy Json.null = false := rfl
    have hmb : strIn (String.mk (nm.data.map Char.toLower)) (String.mk (t.data.map Char.toLower))
        = nameMatchB nm r := by
      rw [hr]; simp [nameMatchB, hnv]
    simp only [processRecords, e1, e3, pyJoinDigits, liftE_ok_bind, hc0, hnt,
      Bool.false_and, Bool.false_eq_true, if_false, Bool.not_false, Bool.true_and, Bool.and_self,
      if_true, asStrLower, hmb]
    by_cases hm : nameMatchB nm r = true
    · rw [if_pos hm, ih _ tr (fun x hx => hwf x (by simp [hx]))]
      simp [List.filter_cons, hm]
    · rw [if_neg hm, ih _ tr (fun x hx => hwf x (by simp [hx]))]
      simp only [List.filter_cons]
      rw [if_neg hm]

theorem processRecords_no_hints (i : Json) (rs : List Json) :
    ∀ (st : St) (tr : List Nat),
    (processRecords i .null .null rs st) tr = (.ok (.cont st), tr)
    ∨ ∃ e, (processRecords i .null .null rs st) tr = (.error e, tr) := by
  induction rs with
  | nil => intro st tr; left; rfl
  | cons r rest ih =>
    intro st tr
    have hc0 : pyTruthy Json.null = false := rfl
    rcases h1 : pyGetD r "cnpj_cpf" (.str "") with e | v
    · right
      exact ⟨e, by simp only [processRecords, h1, liftE_error_bind]⟩
    · rcases h2 : pyJoinDigits v with e | d
      · right
        exact ⟨e, by simp only [processRecords, h1, h2, liftE_ok_bind, liftE_error_bind]⟩
      · rcases h3 : pyGetD r "nome_fantasia" (.str "") with e | w
        · right
          exact ⟨e, by simp only [processRecords, h1, h2, h3, liftE_ok_bind, liftE_error_bind]⟩
        · have hstep : (processRecords i .null .null (r :: rest) st) tr
              = (processRecords i .null .null rest st) tr := by
            simp only [processRecords, h1, h2, h3, liftE_ok_bind, hc0, Bool.false_and,
              Bool.false_eq_true, if_false]
          rw [hstep]
          exact ih st tr

theorem pageStep_mk (tp : Int) (pages : Nat → List Json) (ped : Json → HttpOutcome)
    (i n m cd : Json) (p : Nat) (st : St) (tr : List Nat) :
    (pageStep (mkClientesEnv tp pages ped) i n m cd p st) tr
      = if (pages p).isEmpty then (.ok (.cont st), tr ++ [p])
        else (processRecords i n m (pages p) st) (tr ++ [p]) := by
  have he : ∀ rs : List Json,
      pyGetD (.obj [("total_de_paginas", .num tp), ("clientes_cadastro", .arr rs)])
        "error" .null = .ok .null := fun _ => rfl
  have hl : ∀ rs : List Json,
      pyGetD (.obj [("total_de_paginas", .num tp), ("clientes_cadastro", .arr rs)])
        "clientes_cadastro" .null = .ok (.arr rs) := fun _ => rfl
  have hit : ∀ rs : List Json, pyIter (.arr rs) = .ok rs := fun _ => rfl
  have h0 : pyTruthy Json.null = false := rfl
  by_cases hpp : pages p = []
  · simp only [pageStep, mkClientesEnv, callOmieApi_mk, he, hl, logPage_bind, liftE_ok_bind,
      h0, Bool.false_eq_true, if_false, hpp, show pyTruthy (Json.arr []) = false from rfl,
      PyM.pure_apply, List.isEmpty_nil, if_true]
  · have ht : pyTruthy (.arr (pages p)) = true := by simp [pyTruthy, hpp]
    have hemp : (pages p).isEmpty = false := by simp [hpp]
    simp only [pageStep, mkClientesEnv, callOmieApi_mk, he, hl, hit, logPage_bind, liftE_ok_bind,
      h0, Bool.false_eq_true, if_false, ht, if_true, hemp]

theorem scanRest_cons_step (env : OmieEnv) (i n m cd : Json) (p : Nat) (ps : List Nat) (st : St)
    (tr : List Nat) (h : pyTruthy st.custId = false) :
    (scanRest env i n m cd (p :: ps) st) tr
      = match (pageStep env i n m cd p st) tr with
        | (.ok (.ret s), tr1) => (.ok (.ret s), tr1)
        | (.ok (.cont st1), tr1) => (scanRest env i n m cd ps st1) tr1
        | (.error e, tr1) => (.error e, tr1) := by
  simp only [scanRest, h, Bool.false_eq_true, if_false, PyM.bind_apply]
  rcases (pageStep env i n m cd p st) tr with ⟨e | out, tr1⟩
  · rfl
  · rcases out with s | st1 <;> rfl

theorem scanRest_break (env : OmieEnv) (i n m cd : Json) (ps : List Nat) (st : St)
    (tr : List Nat) (h : pyTruthy st.custId = true) :
    (scanRest env i n m cd ps st) tr = (.ok (.cont st), tr) := by
  cases ps
  · rfl
  · simp only [scanRest, h, if_true, PyM.pure_apply]

theorem scanRest_cnpj_nomatch (tp : Int) (pages : Nat → List Json) (ped : Json → HttpOutcome)
    (i nomeJ cd : Json) (c : String) (hc : c ≠ "") :
    ∀ (ps : List Nat) (st : St) (tr : List Nat),
    pyTruthy st.custId = false →
    (∀ p ∈ ps, ∀ r ∈ pages p, wfRec r = true) →
    (∀ p ∈ ps, ∀ r ∈ pages p, recDigits r ≠ c) →
    (scanRest (mkClientesEnv tp pages ped) i (.str c) nomeJ cd ps st) tr
      = (.ok (.cont st), tr ++ ps) := by
  intro ps
  induction ps with
  | nil => intro st tr _ _ _; simp [scanRest, PyM.pure_apply]
  | cons p ps ih =>
    intro st tr hcid hwf hnm
    rw [scanRest_cons_step _ _ _ _ _ _ _ _ _ hcid, pageStep_mk]
    by_cases hpp : (pages p).isEmpty
    · rw [if_pos hpp]
      show (scanRest _ _ _ _ _ ps st) (tr ++ [p]) = _
      rw [ih st (tr ++ [p]) hcid (fun q hq => hwf q (by simp [hq]))
        (fun q hq => hnm q (by simp [hq]))]
      simp
    · rw [if_neg hpp]
      rw [processRecords_cnpj_nomatch i nomeJ c hc (pages p) st (tr ++ [p])
        (hwf p (by simp)) (hnm p (by simp))]
      show (scanRest _ _ _ _ _ ps st) (tr ++ [p]) = _
      rw [ih st (tr ++ [p]) hcid (fun q hq => hwf q (by simp [hq]))
        (fun q hq => hnm q (by simp [hq]))]
      simp

theorem scanRest_cnpj_match (tp : Int) (pages : Nat → List Json) (ped : Json → HttpOutcome)
    (i nomeJ cd : Json) (c : String) (hc : c ≠ "") (r : Json) (pre post : List Json)
    (hr : wfRec r = true) (hd : recDigits r = c) (hid : pyTruthy (recId r) = true)
    (hpre_wf : ∀ x ∈ pre, wfRec x = true) (hpre_nm : ∀ x ∈ pre, recDigits x ≠ c) :
    ∀ (ps1 : List Nat) (pstar : Nat) (ps2 : List Nat) (st : St) (tr : List Nat),
    pyTruthy st.custId = false → st.found = none →
    pages pstar = pre ++ r :: post →
    (∀ p ∈ ps1, ∀ x ∈ pages p, wfRec x = true) →
    (∀ p ∈ ps1, ∀ x ∈ pages p, recDigits x ≠ c) →
    (scanRest (mkClientesEnv tp pages ped) i (.str c) nomeJ cd (ps1 ++ pstar :: ps2) st) tr
      = (.ok (.cont ⟨some r, recId r, st.byName⟩), tr ++ ps1 ++ [pstar]) := by
  intro ps1
  induction ps1 with
  | nil =>
    intro pstar ps2 st tr hcid hf hsplit _ _
    simp only [List.nil_append]
    rw [scanRest_cons_step _ _ _ _ _ _ _ _ _ hcid, pageStep_mk]
    have hpp : (pages pstar).isEmpty = false := by simp [hsplit]
    rw [hpp]
    simp only [Bool.false_eq_true, if_false]
    rw [hsplit, processRecords_cnpj_match i nomeJ c hc pre r post st (tr ++ [pstar])
      hpre_wf hpre_nm hr hd hf]
    show (scanRest _ _ _ _ _ ps2 ⟨some r, recId r, st.byName⟩) (tr ++ [pstar]) = _
    rw [scanRest_break _ _ _ _ _ ps2 _ _ (by simpa using hid)]
    simp
  | cons p ps1 ih =>
    intro pstar ps2 st tr hcid hf hsplit hwf hnm
    rw [show ((p :: ps1) ++ pstar :: ps2) = p :: (ps1 ++ pstar :: ps2) from rfl]
    rw [scanRest_cons_step _ _ _ _ _ _ _ _ _ hcid, pageStep_mk]
    by_cases hpp : (pages p).isEmpty
    · rw [if_pos hpp]
      show (scanRest _ _ _ _ _ (ps1 ++ pstar :: ps2) st) (tr ++ [p]) = _
      rw [ih pstar ps2 st (tr ++ [p]) hcid hf hsplit (fun q hq => hwf q (by simp [hq]))
        (fun q hq => hnm q (by simp [hq]))]
      simp
    · rw [if_neg hpp]
      rw [processRecords_cnpj_nomatch i nomeJ c hc (pages p) st (tr ++ [p])
        (hwf p (by simp)) (hnm p (by simp))]
      show (scanRest _ _ _ _ _ (ps1 ++ pstar :: ps2) st) (tr ++ [p]) = _
      rw [ih pstar ps2 st (tr ++ [p]) hcid hf hsplit (fun q hq => hwf q (by simp [hq]))
        (fun q hq => hnm q (by simp [hq]))]
      simp

theorem scanRest_name_collect (tp : Int) (pages : Nat → List Json) (ped : Json → HttpOutcome)
    (i cd : Json) (nm : String) (hn : nm ≠ "") :
    ∀ (ps : List Nat) (st : St) (tr : List Nat),
    pyTruthy st.custId = false →
    (∀ p ∈ ps, ∀ r ∈ pages p, wfRec r = true) →
    (scanRest (mkClientesEnv tp pages ped) i .null (.str nm) cd ps st) tr
      = (.ok (.cont ⟨st.found, st.custId, st.byName ++ collectNameHits nm pages ps⟩), tr ++ ps) := by
  intro ps
  induction ps with
  | nil => intro st tr _ _; simp [scanRest, PyM.pure_apply, collectNameHits]
  | cons p ps ih =>
    intro st tr hcid hwf
    rw [scanRest_cons_step _ _ _ _ _ _ _ _ _ hcid, pageStep_mk]
    by_cases hpp : (pages p).isEmpty
    · rw [if_pos hpp]
      show (scanRest _ _ _ _ _ ps st) (tr ++ [p]) = _
      rw [ih st (tr ++ [p]) hcid (fun q hq => hwf q (by simp [hq]))]
      have : pages p = [] := by simpa [List.isEmpty_iff] using hpp
      simp [collectNameHits, this]
    · rw [if_neg hpp]
      rw [processRecords_name_collect i nm hn (pages p) st (tr ++ [p]) (hwf p (by simp))]
      show (scanRest _ _ _ _ _ ps ⟨st.found, st.custId, st.byName ++ _⟩) (tr ++ [p]) = _
      rw [ih ⟨st.found, st.custId, st.byName ++ (pages p).filter (nameMatchB nm)⟩ (tr ++ [p])
        (by simpa using hcid) (fun q hq => hwf q (by simp [hq]))]
      simp [collectNameHits]

theorem scanAll_mk (tp : Int) (pages : Nat → List Json) (ped : Json → HttpOutcome)
    (i n m cd : Json) (tr : List Nat) :
    (scanAll (mkClientesEnv tp pages ped) i n m cd) tr
      = (match (if (pages 1).isEmpty
                then ((Except.ok (LoopOut.cont st0), tr ++ [1]) : Except String (LoopOut St) × List Nat)
                else (processRecords i n m (pages 1) st0) (tr ++ [1])) with
        | (.ok (.ret s), tr1) => (.ok (.ret s), tr1)
        | (.ok (.cont st1), tr1) =>
          if pyTruthy st1.custId then (.ok (.cont st1), tr1)
          else if (pages 1).isEmpty && (tp == 1) then
            (.ok (.ret "Erro: Cliente não encontrado com os critérios fornecidos (nenhum resultado na primeira página)."), tr1)
          else if 2 ≤ tp then
            (scanRest (mkClientesEnv tp pages ped) i n m cd (pagesAfterOne tp) st1) tr1
          else (.ok (.cont st1), tr1)
        | (.error e, tr1) => (.error e, tr1)) := by
  have hge : pyGetD (.obj [("total_de_paginas", .num tp), ("clientes_cadastro", .arr (pages 1))])
      "error" .null = .ok .null := rfl
  have hgt : pyGetD (.obj [("total_de_paginas", .num tp), ("clientes_cadastro", .arr (pages 1))])
      "total_de_paginas" (.num 1) = .ok (.num tp) := rfl
  have hgc : pyGetD (.obj [("total_de_paginas", .num tp), ("clientes_cadastro", .arr (pages 1))])
      "clientes_cadastro" .null = .ok (.arr (pages 1)) := rfl
  have h0 : pyTruthy Json.null = false := rfl
  have hit : ∀ rs : List Json, pyIter (.arr rs) = .ok rs := fun _ => rfl
  simp only [scanAll, mkClientesEnv, callOmieApi_mk, logPage_bind, hge, hgt, hgc, liftE_ok_bind,
    h0, Bool.false_eq_true, if_false]
  by_cases hpp : (pages 1).isEmpty
  · have hl0 : pages 1 = [] := by simpa [List.isEmpty_iff] using hpp
    simp only [hl0, List.isEmpty_nil, if_true, show pyTruthy (Json.arr []) = false from rfl,
      Bool.false_eq_true, if_false, PyM.pure_apply, PyM.bind_apply,
      show pyTruthy st0.custId = false from rfl, Bool.not_false, pyEqOne, Bool.true_and]
    by_cases h1 : tp = 1
    · simp [h1, PyM.pure_apply]
    · have he1 : (tp == 1) = false := by simp [h1]
      simp only [he1, Bool.false_eq_true, if_false, pyLeTp, liftE_ok_bind]
      by_cases h2 : 2 ≤ tp
      · simp only [if_pos h2]
      · simp only [if_neg h2, PyM.pure_apply]
  · have hemp : (pages 1).isEmpty = false := by simpa using hpp
    have ht : pyTruthy (.arr (pages 1)) = true := by
      simp [pyTruthy, List.isEmpty_iff] at hemp ⊢
      exact hemp
    simp only [hemp, Bool.false_eq_true, if_false, ht, if_true, hit, liftE_apply,
      liftE_ok_bind, PyM.bind_apply]
    rcases hres : (processRecords i n m (pages 1) st0) (tr ++ [1]) with ⟨e | out, tr1⟩
    · rfl
    · rcases out with s | st1
      · simp [PyM.pure_apply]
      · simp only []
        by_cases hcid : pyTruthy st1.custId
        · simp only [hcid, if_true, PyM.pure_apply]
        · simp only [hcid, Bool.false_eq_true, if_false, Bool.not_false, pyEqOne,
            Bool.false_and, Bool.true_and]
          by_cases h1 : tp = 1
          · simp [h1, pyLeTp, liftE_ok_bind, PyM.pure_apply, hcid]
          · have he1 : (tp == 1) = false := by simp [h1]
            simp only [he1, Bool.false_eq_true, if_false, pyLeTp, liftE_ok_bind, Bool.and_false]
            by_cases h2 : 2 ≤ tp
            · simp only [if_pos h2]
            · simp only [if_neg h2, PyM.pure_apply]

theorem range'_split_at (pstar tp : Nat) (h2 : 2 ≤ pstar) (hle : pstar ≤ tp) :
    List.range' 2 (tp - 1) = List.range' 2 (pstar - 2) ++ pstar :: List.range' (pstar + 1) (tp - pstar) := by
  have e1 := List.range'_append 2 (pstar - 2) (tp - pstar + 1) 1
  rw [show 2 + 1 * (pstar - 2) = pstar from by omega] at e1
  rw [show tp - pstar + 1 + (pstar - 2) = tp - 1 from by omega] at e1
  rw [← e1, List.range'_succ]

theorem range'_head_split (pstar : Nat) (h2 : 2 ≤ pstar) :
    List.range' 2 (pstar - 2) ++ [pstar] = List.range' 2 (pstar - 1) := by
  have e1 := List.range'_append 2 (pstar - 2) 1 1
  rw [show 2 + 1 * (pstar - 2) = pstar from by omega] at e1
  rw [show (1 : Nat) + (pstar - 2) = pstar - 1 from by omega] at e1
  rw [← e1]
  simp [List.range']

theorem rangeTo_cons (pstar : Nat) (h1 : 1 ≤ pstar) :
    rangeTo pstar = 1 :: List.range' 2 (pstar - 1) := by
  unfold rangeTo
  have e := List.range'_succ 1 (pstar - 1) 1
  rw [show pstar - 1 + 1 = pstar from by omega] at e
  rw [e]

theorem scanAll_cnpj_first_match (tp : Nat) (pages : Nat → List Json) (ped : Json → HttpOutcome)
    (i nomeJ cd : Json) (c : String) (hc : c ≠ "")
    (r : Json) (pre post : List Json) (pstar : Nat)
    (hr : wfRec r = true) (hd : recDigits r = c) (hid : pyTruthy (recId r) = true)
    (hpre_wf : ∀ x ∈ pre, wfRec x = true) (hpre_nm : ∀ x ∈ pre, recDigits x ≠ c)
    (h1p : 1 ≤ pstar) (hpt : pstar ≤ tp)
    (hsplit : pages pstar = pre ++ r :: post)
    (hwf_before : ∀ p, 1 ≤ p → p < pstar → ∀ x ∈ pages p, wfRec x = true)
    (hnm_before : ∀ p, 1 ≤ p → p < pstar → ∀ x ∈ pages p, recDigits x ≠ c)
    (tr : List Nat) :
    (scanAll (mkClientesEnv (tp : Int) pages ped) i (.str c) nomeJ cd) tr
      = (.ok (.cont ⟨some r, recId r, []⟩), tr ++ rangeTo pstar) := by
  rw [scanAll_mk]
  by_cases hp1 : pstar = 1
  · subst hp1
    have hpp : (pages 1).isEmpty = false := by simp [hsplit]
    rw [hpp]
    simp only [Bool.false_eq_true, if_false]
    rw [hsplit, processRecords_cnpj_match i nomeJ c hc pre r post st0 (tr ++ [1])
      hpre_wf hpre_nm hr hd rfl]
    simp only [hid, if_true]
    rfl
  · have h2p : 2 ≤ pstar := by omega
    have htp2 : 2 ≤ tp := by omega
    have hst1 : (if (pages 1).isEmpty
        then ((Except.ok (LoopOut.cont st0), tr ++ [1]) : Except String (LoopOut St) × List Nat)
        else (processRecords i (.str c) nomeJ (pages 1) st0) (tr ++ [1]))
        = (Except.ok (LoopOut.cont st0), tr ++ [1]) := by
      by_cases hpp : (pages 1).isEmpty
      · rw [if_pos hpp]
      · rw [if_neg hpp]
        exact processRecords_cnpj_nomatch i nomeJ c hc (pages 1) st0 (tr ++ [1])
          (hwf_before 1 (by omega) (by omega)) (hnm_before 1 (by omega) (by omega))
    rw [hst1]
    have hcid0 : pyTruthy st0.custId = false := rfl
    simp only [hcid0, Bool.false_eq_true, if_false]
    have htp1 : ((tp : Int) == 1) = false := by
      simp only [beq_eq_false_iff_ne, ne_eq]
      omega
    simp only [htp1, Bool.and_false, Bool.false_eq_true, if_false]
    rw [if_pos (show 2 ≤ (tp : Int) from by omega)]
    have hafter : pagesAfterOne (tp : Int) = List.range' 2 (tp - 1) := by
      unfold pagesAfterOne
      rw [show ((tp : Int) - 1).toNat = tp - 1 from by omega]
    rw [hafter, range'_split_at pstar tp h2p hpt]
    rw [scanRest_cnpj_match (tp : Int) pages ped i nomeJ cd c hc r pre post hr hd hid
      hpre_wf hpre_nm (List.range' 2 (pstar - 2)) pstar (List.range' (pstar + 1) (tp - pstar))
      st0 (tr ++ [1]) rfl rfl hsplit
      (fun p hp => hwf_before p (by
        rcases List.mem_range'.mp hp with ⟨j, hj1, hj2⟩
        omega)
        (by
        rcases List.mem_range'.mp hp with ⟨j, hj1, hj2⟩
        omega))
      (fun p hp => hnm_before p (by
        rcases List.mem_range'.mp hp with ⟨j, hj1, hj2⟩
        omega)
        (by
        rcases List.mem_range'.mp hp with ⟨j, hj1, hj2⟩
        omega))]
    rw [rangeTo_cons pstar h1p, ← range'_head_split pstar h2p]
    simp [st0]

theorem pyTruthy_of_recDigits_ne (r : Json) (h : recDigits r ≠ "") : pyTruthy r = true := by
  rcases r with _ | b | n | s | a | kvs <;> (try (exfalso; exact h rfl))
  rcases kvs with _ | ⟨kv, rest⟩
  · exact absurd rfl h
  · simp [pyTruthy]

theorem encontrar_first_hit (tp : Nat) (pages : Nat → List Json) (ped : Json → HttpOutcome)
    (nomeJ cidadeJ : Json) (rawC : String)
    (r : Json) (pre post : List Json) (pstar : Nat)
    (hc : String.mk (rawC.data.filter Char.isDigit) ≠ "")
    (hr : wfRec r = true) (hd : recDigits r = String.mk (rawC.data.filter Char.isDigit))
    (hid : pyTruthy (recId r) = true)
    (hpre_wf : ∀ x ∈ pre, wfRec x = true)
    (hpre_nm : ∀ x ∈ pre, recDigits x ≠ String.mk (rawC.data.filter Char.isDigit))
    (h1p : 1 ≤ pstar) (hpt : pstar ≤ tp)
    (hsplit : pages pstar = pre ++ r :: post)
    (hwf_before : ∀ p, 1 ≤ p → p < pstar → ∀ x ∈ pages p, wfRec x = true)
    (hnm_before : ∀ p, 1 ≤ p → p < pstar →
      ∀ x ∈ pages p, recDigits x ≠ String.mk (rawC.data.filter Char.isDigit))
    (tr : List Nat) :
    (encontrarPedidosCliente (mkClientesEnv (tp : Int) pages ped) (.str rawC) nomeJ cidadeJ) tr
      = (buscarPedidos (mkClientesEnv (tp : Int) pages ped) (recId r)) (tr ++ rangeTo pstar) := by
  have hraw : rawC ≠ "" := by
    intro h
    exact hc (by rw [h]; rfl)
  have hv : (pyTruthy (.str rawC) || pyTruthy nomeJ || pyTruthy cidadeJ) = true := by
    simp [pyTruthy, hraw]
  have hjd : pyJoinDigits (.str rawC) = .ok (String.mk (rawC.data.filter Char.isDigit)) := rfl
  simp only [encontrarPedidosCliente, hv, Bool.true_or, Bool.not_true, Bool.false_eq_true,
    if_false, show pyTruthy (.str rawC) = true from by simp [pyTruthy, hraw], if_true, hjd,
    liftE_apply, liftE_ok_bind, PyM.pure_apply, PyM.bind_apply]
  rw [scanAll_cnpj_first_match tp pages ped (.str rawC) nomeJ cidadeJ
    (String.mk (rawC.data.filter Char.isDigit)) hc r pre post pstar hr hd hid
    hpre_wf hpre_nm h1p hpt hsplit hwf_before hnm_before tr]
  show (resolvePost nomeJ ⟨some r, recId r, []⟩ >>= _) (tr ++ rangeTo pstar) = _
  have hrp : resolvePost nomeJ ⟨some r, recId r, []⟩ = pure (.cont (some r, recId r)) := by
    simp [resolvePost]
  rw [hrp]
  have hptr : pyTruthy r = true := by
    apply pyTruthy_of_recDigits_ne
    rw [hd]
    exact hc
  have hcond : (!pyTruthy (recId r) || !pyTruthyOpt (some r)) = false := by
    simp [hid, pyTruthyOpt, hptr]
  rw [PyM.bind_apply]
  simp only [PyM.pure_apply, hcond, Bool.false_eq_true, if_false]

/-- C4 (amended): if a tax-id hint is supplied and exactly one record
across all pages has a matching normalized tax-id AND that record carries
a truthy `codigo_cliente_omie`, resolution succeeds with that record (the
run continues exactly as `buscarPedidos` on its customer id) and no page
after the match's page is requested: the trace is precisely pages
1, …, pstar.  (The counterexample `C4_counterexample_match_without_id`
shows the claim fails without the truthy-id proviso.) -/
theorem C4_unique_match_resolves_amended
    (tp : Nat) (pages : Nat → List Json) (ped : Json → HttpOutcome)
    (nomeJ cidadeJ : Json) (rawC : String)
    (r : Json) (pre post : List Json) (pstar : Nat)
    (hc : String.mk (rawC.data.filter Char.isDigit) ≠ "")
    (hr : wfRec r = true) (hd : recDigits r = String.mk (rawC.data.filter Char.isDigit))
    (hid : pyTruthy (recId r) = true)
    (hpre_wf : ∀ x ∈ pre, wfRec x = true)
    (hpre_nm : ∀ x ∈ pre, recDigits x ≠ String.mk (rawC.data.filter Char.isDigit))
    (h1p : 1 ≤ pstar) (hpt : pstar ≤ tp)
    (hsplit : pages pstar = pre ++ r :: post)
    (hwf_before : ∀ p, 1 ≤ p → p < pstar → ∀ x ∈ pages p, wfRec x = true)
    (hnm_before : ∀ p, 1 ≤ p → p < pstar →
      ∀ x ∈ pages p, recDigits x ≠ String.mk (rawC.data.filter Char.isDigit))
    (hpost_nm : ∀ x ∈ post, recDigits x ≠ String.mk (rawC.data.filter Char.isDigit))
    (hnm_after : ∀ p, pstar < p → p ≤ tp →
      ∀ x ∈ pages p, recDigits x ≠ String.mk (rawC.data.filter Char.isDigit)) :
    (encontrarPedidosCliente (mkClientesEnv (tp : Int) pages ped) (.str rawC) nomeJ cidadeJ) []
      = (buscarPedidos (mkClientesEnv (tp : Int) pages ped) (recId r)) (rangeTo pstar) := by
  have h := encontrar_first_hit tp pages ped nomeJ cidadeJ rawC r pre post pstar hc hr hd hid
    hpre_wf hpre_nm h1p hpt hsplit hwf_before hnm_before []
  simpa using h

/-- Witness for `C4_unique_match_resolves_amended`: a two-page directory
whose only matching record sits on page 1 and carries id 9; the run
coincides with fetching customer 9's orders and only page 1 is fetched. -/
theorem C4_unique_match_resolves_amended_witness :
    (encontrarPedidosCliente
        (mkClientesEnv (2 : Int)
          (fun p => if p = 1 then [.obj [("cnpj_cpf", .str "111"), ("codigo_cliente_omie", .num 9)]] else [])
          (fun _ => .requestError "n/a"))
        (.str "11-1") .null .null) []
      = (buscarPedidos
          (mkClientesEnv (2 : Int)
            (fun p => if p = 1 then [.obj [("cnpj_cpf", .str "111"), ("codigo_cliente_omie", .num 9)]] else [])
            (fun _ => .requestError "n/a"))
          (recId (.obj [("cnpj_cpf", .str "111"), ("codigo_cliente_omie", .num 9)]))) (rangeTo 1) :=
  C4_unique_match_resolves_amended 2
    (fun p => if p = 1 then [.obj [("cnpj_cpf", .str "111"), ("codigo_cliente_omie", .num 9)]] else [])
    (fun _ => .requestError "n/a") .null .null "11-1"
    (.obj [("cnpj_cpf", .str "111"), ("codigo_cliente_omie", .num 9)]) [] [] 1
    (by decide) (by decide) (by decide) (by decide)
    (fun x hx => absurd hx (by simp))
    (fun x hx => absurd hx (by simp))
    (by decide) (by decide)
    rfl
    (fun p h1 h2 => absurd h2 (by omega))
    (fun p h1 h2 => absurd h2 (by omega))
    (fun x hx => absurd hx (by simp))
    (by
      intro p hp1 hp2 x hx
      have hp : p = 2 := by omega
      subst hp
      simp at hx)

/-- C2 (amended): when more than one record matches the normalized tax-id
hint, resolution does not fail with the ambiguous-identity error: the scan
stops at the first matching record in scan order and silently resolves to
it, provided that record's customer id is truthy (so the duplicate check
can only fire when an earlier direct hit had a falsy id). -/
theorem C2_first_hit_wins_amended
    (tp : Nat) (pages : Nat → List Json) (ped : Json → HttpOutcome)
    (nomeJ cidadeJ : Json) (rawC : String)
    (r : Json) (pre post : List Json) (pstar : Nat)
    (hc : String.mk (rawC.data.filter Char.isDigit) ≠ "")
    (hr : wfRec r = true) (hd : recDigits r = String.mk (rawC.data.filter Char.isDigit))
    (hid : pyTruthy (recId r) = true)
    (hpre_wf : ∀ x ∈ pre, wfRec x = true)
    (hpre_nm : ∀ x ∈ pre, recDigits x ≠ String.mk (rawC.data.filter Char.isDigit))
    (h1p : 1 ≤ pstar) (hpt : pstar ≤ tp)
    (hsplit : pages pstar = pre ++ r :: post)
    (hwf_before : ∀ p, 1 ≤ p → p < pstar → ∀ x ∈ pages p, wfRec x = true)
    (hnm_before : ∀ p, 1 ≤ p → p < pstar →
      ∀ x ∈ pages p, recDigits x ≠ String.mk (rawC.data.filter Char.isDigit))
    (hsecond : (∃ x ∈ post, recDigits x = String.mk (rawC.data.filter Char.isDigit))
      ∨ ∃ p, pstar < p ∧ p ≤ tp
          ∧ ∃ x ∈ pages p, recDigits x = String.mk (rawC.data.filter Char.isDigit)) :
    (encontrarPedidosCliente (mkClientesEnv (tp : Int) pages ped) (.str rawC) nomeJ cidadeJ) []
      = (buscarPedidos (mkClientesEnv (tp : Int) pages ped) (recId r)) (rangeTo pstar) := by
  have h := encontrar_first_hit tp pages ped nomeJ cidadeJ rawC r pre post pstar hc hr hd hid
    hpre_wf hpre_nm h1p hpt hsplit hwf_before hnm_before []
  simpa using h

/-- Witness for `C2_first_hit_wins_amended`: two records match on page 1
(ids 5 and 6); the run coincides with fetching customer 5's orders. -/
theorem C2_first_hit_wins_amended_witness :
    (encontrarPedidosCliente
        (mkClientesEnv (1 : Int)
          (fun p => if p = 1 then
            [.obj [("cnpj_cpf", .str "111"), ("codigo_cliente_omie", .num 5)],
             .obj [("cnpj_cpf", .str "111"), ("codigo_cliente_omie", .num 6)]] else [])
          (fun _ => .requestError "n/a"))
        (.str "111") .null .null) []
      = (buscarPedidos
          (mkClientesEnv (1 : Int)
            (fun p => if p = 1 then
              [.obj [("cnpj_cpf", .str "111"), ("codigo_cliente_omie", .num 5)],
               .obj [("cnpj_cpf", .str "111"), ("codigo_cliente_omie", .num 6)]] else [])
            (fun _ => .requestError "n/a"))
          (recId (.obj [("cnpj_cpf", .str "111"), ("codigo_cliente_omie", .num 5)]))) (rangeTo 1) :=
  C2_first_hit_wins_amended 1
    (fun p => if p = 1 then
      [.obj [("cnpj_cpf", .str "111"), ("codigo_cliente_omie", .num 5)],
       .obj [("cnpj_cpf", .str "111"), ("codigo_cliente_omie", .num 6)]] else [])
    (fun _ => .requestError "n/a") .null .null "111"
    (.obj [("cnpj_cpf", .str "111"), ("codigo_cliente_omie", .num 5)]) []
    [.obj [("cnpj_cpf", .str "111"), ("codigo_cliente_omie", .num 6)]] 1
    (by decide) (by decide) (by decide) (by decide)
    (fun x hx => absurd hx (by simp))
    (fun x hx => absurd hx (by simp))
    (by decide) (by decide)
    rfl
    (fun p h1 h2 => absurd h2 (by omega))
    (fun p h1 h2 => absurd h2 (by omega))
    (Or.inl ⟨.obj [("cnpj_cpf", .str "111"), ("codigo_cliente_omie", .num 6)],
      List.mem_singleton_self _, by decide⟩)

instance : LawfulMonad PyM := by
  refine LawfulMonad.mk' PyM ?_ ?_ ?_
  · intro α x
    funext tr
    show (x >>= fun a => pure (id a)) tr = x tr
    rw [PyM.bind_apply]
    rcases x tr with ⟨e | a, tr1⟩ <;> rfl
  · intro α β a f
    funext tr
    rfl
  · intro α β γ x f g
    funext tr
    show ((x >>= f) >>= g) tr = (x >>= fun a => f a >>= g) tr
    simp only [PyM.bind_apply]
    rcases x tr with ⟨e | a, tr1⟩
    · rfl
    · simp only [PyM.bind_apply]

theorem nameMatch_key {nm : String} {m : Json} (hn : nm ≠ "") (h : nameMatchB nm m = true) :
    ∃ kvs, m = Json.obj kvs ∧ jlookup kvs "nome_fantasia" = some (.str (nameStrOf m)) := by
  rcases m with _ | b | n | s | a | kvs
  case obj =>
    refine ⟨kvs, rfl, ?_⟩
    rcases hk : jlookup kvs "nome_fantasia" with _ | v
    · exfalso
      simp only [nameMatchB, hk, Option.getD_none, strIn, hasSub] at h
      have h2 : nm.data = [] := by
        rcases hd : nm.data with _ | ⟨c, cs⟩
        · rfl
        · rw [hd] at h
          simp at h
      apply hn
      rcases nm with ⟨l⟩
      simp only at h2
      rw [h2]
    · rcases v with _ | b | n | s2 | a | o <;>
        simp only [nameMatchB, hk, Option.getD_some] at h <;>
        first
          | (exact absurd h (by decide))
          | (simp [nameStrOf, hk])
  all_goals simp [nameMatchB] at h

theorem mapM_pairs_matched (nm : String) (hn : nm ≠ "") :
    ∀ (ms : List Json), (∀ m ∈ ms, nameMatchB nm m = true) → ∀ tr : List Nat,
    ((ms.mapM (fun m => do
        let k ← liftE (pyGetD m "nome_fantasia" .null)
        Pure.pure (k, m)) : PyM (List (Json × Json)))) tr
      = (.ok (ms.map (fun m => (Json.str (nameStrOf m), m))), tr) := by
  intro ms
  induction ms with
  | nil => intro _ tr; rfl
  | cons m rest ih =>
    intro hmat tr
    obtain ⟨kvs, hm, hk⟩ := nameMatch_key hn (hmat m (by simp))
    have hg : pyGetD m "nome_fantasia" .null = .ok (.str (nameStrOf m)) := by
      rw [hm]
      simp [pyGetD]
      rw [← hm, hk]
      rfl
    have hstep : ∀ tr2 : List Nat, ((do
        let k ← liftE (pyGetD m "nome_fantasia" .null)
        Pure.pure (k, m) : PyM (Json × Json))) tr2
        = (.ok ((.str (nameStrOf m) : Json), m), tr2) := by
      intro tr2
      show (liftE (pyGetD m "nome_fantasia" .null) >>= fun k =>
        (Pure.pure (k, m) : PyM (Json × Json))) tr2 = _
      rw [hg, liftE_ok_bind]
      rfl
    rw [List.mapM_cons, PyM.bind_apply, hstep]
    show ((rest.mapM _ : PyM (List (Json × Json))) >>= _) tr = _
    rw [PyM.bind_apply, ih (fun x hx => hmat x (by simp [hx])) tr]
    rfl


theorem bMem_strs (n : String) :
    ∀ accN : List String, bMem (accN.map Json.str) (Json.str n) = decide (n ∈ accN) := by
  intro accN
  induction accN with
  | nil => simp [bMem]
  | cons a as ihn =>
    simp only [List.map_cons, bMem, List.any_cons] at *
    by_cases hna : a = n
    · simp [hna, Json.beq]
    · have hb : Json.beq (Json.str a) (Json.str n) = false := by
        simp [Json.beq, hna]
      have hne : n ≠ a := fun h => hna h.symm
      simp [hb, hna, hne, ihn]

theorem dictUpsert_keys (k v : Json) :
    ∀ acc : List (Json × Json), (dictUpsert acc k v).map Prod.fst
      = if bMem (acc.map Prod.fst) k then acc.map Prod.fst else acc.map Prod.fst ++ [k] := by
  intro acc
  induction acc with
  | nil => simp [dictUpsert, bMem]
  | cons kv rest ih =>
    rcases kv with ⟨k1, v1⟩
    by_cases hb : Json.beq k1 k = true
    · simp [dictUpsert, hb, bMem]
    · simp only [dictUpsert, hb, Bool.false_eq_true, if_false, List.map_cons, ih, bMem,
        List.any_cons]
      by_cases hm : (rest.map Prod.fst).any (fun k1 => Json.beq k1 k) = true
      · simp [bMem, hm, hb]
      · simp [bMem, hm, hb]

theorem upsertAll_card (pairs : List (Json × Json)) :
    ∀ (names : List String), pairs.map Prod.fst = names.map Json.str →
    ∀ (acc : List (Json × Json)) (accN : List String),
    acc.map Prod.fst = accN.map Json.str → accN.Nodup →
    (upsertAll acc pairs).length = (accN.toFinset ∪ names.toFinset).card := by
  induction pairs with
  | nil =>
    intro names hnames acc accN hacc hnd
    rcases names with _ | ⟨n, names⟩
    · simp only [upsertAll, List.toFinset_nil, Finset.union_empty]
      have : acc.length = accN.length := by
        have := congrArg List.length hacc
        simpa using this
      rw [this, List.toFinset_card_of_nodup hnd]
    · simp at hnames
  | cons kv rest ih =>
    intro names hnames acc accN hacc hnd
    rcases kv with ⟨k, v⟩
    rcases names with _ | ⟨n, names⟩
    · simp at hnames
    · simp only [List.map_cons, List.cons.injEq] at hnames
      obtain ⟨hk, hrest⟩ := hnames
      have hbm : bMem (acc.map Prod.fst) k = decide (n ∈ accN) := by
        rw [hacc, hk, bMem_strs]
      show (upsertAll (dictUpsert acc k v) rest).length = _
      by_cases hmem : n ∈ accN
      · have hkeys : (dictUpsert acc k v).map Prod.fst = accN.map Json.str := by
          rw [dictUpsert_keys, hbm]
          simp [hmem, hacc]
        rw [ih names hrest (dictUpsert acc k v) accN hkeys hnd]
        congr 1
        ext x
        simp only [Finset.mem_union, List.mem_toFinset, List.mem_cons]
        constructor
        · tauto
        · rintro (h | rfl | h)
          · exact Or.inl h
          · exact Or.inl hmem
          · exact Or.inr h
      · have hkeys : (dictUpsert acc k v).map Prod.fst = (accN ++ [n]).map Json.str := by
          rw [dictUpsert_keys, hbm]
          simp [hmem, hacc, hk]
        have hnd2 : (accN ++ [n]).Nodup := by
          simp [List.nodup_append, hnd, hmem]
        rw [ih names hrest (dictUpsert acc k v) (accN ++ [n]) hkeys hnd2]
        congr 1
        ext x
        simp only [Finset.mem_union, List.mem_toFinset, List.mem_cons, List.mem_append,
          List.mem_singleton]
        tauto

theorem mem_collectNameHits (nm : String) (pages : Nat → List Json) :
    ∀ (ps : List Nat) (m : Json), m ∈ collectNameHits nm pages ps → nameMatchB nm m = true := by
  intro ps
  induction ps with
  | nil => intro m hm; simp [collectNameHits] at hm
  | cons p ps ih =>
    intro m hm
    simp only [collectNameHits, List.mem_append] at hm
    rcases hm with hm | hm
    · exact (List.mem_filter.mp hm).2
    · exact ih m hm

theorem scanAll_name_collect (tp : Nat) (pages : Nat → List Json) (ped : Json → HttpOutcome)
    (i cd : Json) (nm : String) (hn : nm ≠ "") (h1t : 1 ≤ tp)
    (hwf : ∀ p, 1 ≤ p → p ≤ tp → ∀ r ∈ pages p, wfRec r = true)
    (hne : pages 1 ≠ [] ∨ 2 ≤ tp) (tr : List Nat) :
    (scanAll (mkClientesEnv (tp : Int) pages ped) i .null (.str nm) cd) tr
      = (.ok (.cont ⟨none, .null, collectNameHits nm pages (rangeTo tp)⟩), tr ++ rangeTo tp) := by
  rw [scanAll_mk]
  by_cases hpp : (pages 1).isEmpty
  · have hl0 : pages 1 = [] := by simpa [List.isEmpty_iff] using hpp
    have h2 : 2 ≤ tp := by
      rcases hne with h | h
      · exact absurd hl0 h
      · exact h
    rw [if_pos hpp]
    have hcid0 : pyTruthy st0.custId = false := rfl
    have htp1 : ((tp : Int) == 1) = false := by
      simp only [beq_eq_false_iff_ne, ne_eq]
      omega
    simp only [hcid0, Bool.false_eq_true, if_false, hpp, Bool.true_and, htp1]
    rw [if_pos (show 2 ≤ (tp : Int) from by omega)]
    have hafter : pagesAfterOne (tp : Int) = List.range' 2 (tp - 1) := by
      unfold pagesAfterOne
      rw [show ((tp : Int) - 1).toNat = tp - 1 from by omega]
    rw [hafter]
    rw [scanRest_name_collect (tp : Int) pages ped i cd nm hn (List.range' 2 (tp - 1)) st0
      (tr ++ [1]) rfl
      (fun p hp => hwf p
        (by
          rcases List.mem_range'.mp hp with ⟨j, hj1, hj2⟩
          omega)
        (by
          rcases List.mem_range'.mp hp with ⟨j, hj1, hj2⟩
          omega))]
    rw [rangeTo_cons tp h1t]
    simp [st0, collectNameHits, hl0]
  · have hemp : (pages 1).isEmpty = false := by simpa using hpp
    rw [hemp]
    simp only [Bool.false_eq_true, if_false]
    rw [processRecords_name_collect i nm hn (pages 1) st0 (tr ++ [1]) (hwf 1 (by omega) h1t)]
    have hcid0 : pyTruthy st0.custId = false := rfl
    simp only [hcid0, Bool.false_eq_true, if_false, Bool.false_and]
    by_cases h2 : 2 ≤ tp
    · rw [if_pos (show 2 ≤ (tp : Int) from by omega)]
      have hafter : pagesAfterOne (tp : Int) = List.range' 2 (tp - 1) := by
        unfold pagesAfterOne
        rw [show ((tp : Int) - 1).toNat = tp - 1 from by omega]
      rw [hafter]
      rw [scanRest_name_collect (tp : Int) pages ped i cd nm hn (List.range' 2 (tp - 1))
        ⟨st0.found, st0.custId, st0.byName ++ (pages 1).filter (nameMatchB nm)⟩
        (tr ++ [1]) rfl
        (fun p hp => hwf p
          (by
            rcases List.mem_range'.mp hp with ⟨j, hj1, hj2⟩
            omega)
          (by
            rcases List.mem_range'.mp hp with ⟨j, hj1, hj2⟩
            omega))]
      rw [rangeTo_cons tp h1t]
      simp [st0, collectNameHits]
    · have htp : tp = 1 := by omega
      subst htp
      rw [if_neg (show ¬(2 ≤ ((1 : Nat) : Int)) from by omega)]
      have hr1 : rangeTo 1 = [1] := rfl
      simp [st0, collectNameHits, hr1]

theorem resolvePost_many (nomeJ : Json) (f : Option Json) (a b : Json) (rest : List Json) :
    resolvePost nomeJ ⟨f, .null, a :: b :: rest⟩
      = (((a :: b :: rest).mapM (fun m => do
            let k ← liftE (pyGetD m "nome_fantasia" .null)
            Pure.pure (k, m)) : PyM (List (Json × Json))) >>= fun pairs =>
          if (upsertAll [] pairs).length == 1 then
            match upsertAll [] pairs with
            | [] => liftE (.error "IndexError: lista vazia")
            | (_, v) :: _ => do
              let cid ← liftE (pyGetD v "codigo_cliente_omie" .null)
              pure (.cont (some v, cid))
          else
            pure (.ret ("Erro: Múltiplos clientes (" ++ toString (upsertAll [] pairs).length
              ++ ") encontrados com o Nome Fantasia \x27" ++ pyStr nomeJ
              ++ "\x27 após verificar todas as páginas. Por favor, forneça um CNPJ/CPF ou um Nome Fantasia mais específico."))) := rfl

theorem resolvePost_ambiguous (nm : String) (hn : nm ≠ "") (f : Option Json)
    (a b : Json) (rest : List Json)
    (hmat : ∀ m ∈ a :: b :: rest, nameMatchB nm m = true)
    (hD : 2 ≤ ((a :: b :: rest).map nameStrOf).toFinset.card)
    (tr : List Nat) :
    (resolvePost (.str nm) ⟨f, .null, a :: b :: rest⟩) tr
      = (.ok (.ret ("Erro: Múltiplos clientes ("
          ++ toString ((a :: b :: rest).map nameStrOf).toFinset.card
          ++ ") encontrados com o Nome Fantasia \x27" ++ nm
          ++ "\x27 após verificar todas as páginas. Por favor, forneça um CNPJ/CPF ou um Nome Fantasia mais específico.")), tr) := by
  rw [resolvePost_many, PyM.bind_apply, mapM_pairs_matched nm hn (a :: b :: rest) hmat tr]
  have hkeys : ((a :: b :: rest).map (fun m => (Json.str (nameStrOf m), m))).map Prod.fst
      = ((a :: b :: rest).map nameStrOf).map Json.str := by
    simp [List.map_map, Function.comp]
  have hcard : (upsertAll [] ((a :: b :: rest).map (fun m => (Json.str (nameStrOf m), m)))).length
      = ((a :: b :: rest).map nameStrOf).toFinset.card := by
    have h := upsertAll_card _ ((a :: b :: rest).map nameStrOf) hkeys [] [] rfl List.nodup_nil
    simpa using h
  have hne1 : (((a :: b :: rest).map nameStrOf).toFinset.card == 1) = false := by
    simp only [beq_eq_false_iff_ne, ne_eq]
    omega
  simp only [hcard, pyStr, hne1, Bool.false_eq_true, if_false, PyM.pure_apply]

/-- C5: for a name-only resolution (name hint given, no tax-id hint) over a
well-formed directory whose collected matches across all pages carry two or
more distinct display names, the tool fails with the ambiguous-name error,
and the count it reports equals exactly the number of distinct display
names among the collected matches. -/
theorem C5_ambiguous_name_count (tp : Nat) (pages : Nat → List Json) (ped : Json → HttpOutcome)
    (cd : Json) (nm : String) (hn : nm ≠ "") (h1t : 1 ≤ tp)
    (hwf : ∀ p, 1 ≤ p → p ≤ tp → ∀ r ∈ pages p, wfRec r = true)
    (hD : 2 ≤ ((collectNameHits nm pages (rangeTo tp)).map nameStrOf).toFinset.card)
    (tr : List Nat) :
    (encontrarPedidosCliente (mkClientesEnv (tp : Int) pages ped) .null (.str nm) cd) tr
      = (.ok (.msg ("Erro: Múltiplos clientes ("
            ++ toString ((collectNameHits nm pages (rangeTo tp)).map nameStrOf).toFinset.card
            ++ ") encontrados com o Nome Fantasia \x27" ++ nm
            ++ "\x27 após verificar todas as páginas. Por favor, forneça um CNPJ/CPF ou um Nome Fantasia mais específico.")),
          tr ++ rangeTo tp) := by
  have hne : pages 1 ≠ [] ∨ 2 ≤ tp := by
    by_cases h2 : 2 ≤ tp
    · exact Or.inr h2
    · left
      have htp : tp = 1 := by omega
      subst htp
      intro h0
      rw [show rangeTo 1 = [1] from rfl] at hD
      simp [collectNameHits, h0] at hD
  have hv : (pyTruthy Json.null || pyTruthy (Json.str nm) || pyTruthy cd) = true := by
    simp [pyTruthy, hn]
  rcases hms : collectNameHits nm pages (rangeTo tp) with _ | ⟨a, rest1⟩
  · rw [hms] at hD
    simp at hD
  rcases rest1 with _ | ⟨b, rest⟩
  · rw [hms] at hD
    simp at hD
  have hD2 : 2 ≤ ((a :: b :: rest).map nameStrOf).toFinset.card := hms ▸ hD
  have hmat : ∀ m ∈ a :: b :: rest, nameMatchB nm m = true :=
    fun m hm => mem_collectNameHits nm pages (rangeTo tp) m (hms ▸ hm)
  simp only [encontrarPedidosCliente, hv, Bool.not_true, Bool.false_eq_true, if_false,
    show pyTruthy Json.null = false from rfl, show pyTruthy (Json.str nm) = true from by
      simp [pyTruthy, hn], Bool.false_or, Bool.true_or, PyM.pure_apply, PyM.bind_apply]
  rw [scanAll_name_collect tp pages ped .null cd nm hn h1t hwf hne tr, hms]
  show (resolvePost (.str nm) ⟨none, Json.null, a :: b :: rest⟩ >>= _) (tr ++ rangeTo tp) = _
  rw [PyM.bind_apply, resolvePost_ambiguous nm hn none a b rest hmat hD2 (tr ++ rangeTo tp)]
  rfl

/-- Witness for `C5_ambiguous_name_count`: a single directory page holding
records named "Alpha" and "Beta", both matching the hint "a"; the run
fails with the ambiguous-name error reporting 2 distinct names. -/
theorem C5_ambiguous_name_count_witness :
    (encontrarPedidosCliente
        (mkClientesEnv (1 : Int)
          (fun p => if p = 1 then
            [.obj [("nome_fantasia", .str "Alpha"), ("codigo_cliente_omie", .num 11)],
             .obj [("nome_fantasia", .str "Beta"), ("codigo_cliente_omie", .num 22)]] else [])
          (fun _ => .requestError "n/a"))
        .null (.str "a") .null) []
      = (.ok (.msg ("Erro: Múltiplos clientes (2) encontrados com o Nome Fantasia \x27a\x27 após verificar todas as páginas. Por favor, forneça um CNPJ/CPF ou um Nome Fantasia mais específico.")),
         [1]) := by
  have h := C5_ambiguous_name_count 1
    (fun p => if p = 1 then
      [.obj [("nome_fantasia", .str "Alpha"), ("codigo_cliente_omie", .num 11)],
       .obj [("nome_fantasia", .str "Beta"), ("codigo_cliente_omie", .num 22)]] else [])
    (fun _ => .requestError "n/a") .null "a" (by decide) (by decide)
    (by
      intro p h1 h2 r hr
      have hp : p = 1 := by omega
      subst hp
      simp only [if_pos rfl] at hr
      fin_cases hr <;> decide)
    (by decide) []
  have hc2 : (((collectNameHits "a"
      (fun p => if p = 1 then
        [.obj [("nome_fantasia", .str "Alpha"), ("codigo_cliente_omie", .num 11)],
         .obj [("nome_fantasia", .str "Beta"), ("codigo_cliente_omie", .num 22)]] else [])
      (rangeTo 1)).map nameStrOf).toFinset.card) = 2 := by decide
  rw [hc2] at h
  exact h

theorem jlookup_mapTp (g0 : Json → Json) (key : String) (hk : key ≠ "total_de_paginas") :
    ∀ kvs : List (String × Json),
    jlookup (kvs.map (fun kv =>
        if kv.1 = "total_de_paginas" then (kv.1, g0 kv.2) else kv)) key
      = jlookup kvs key := by
  intro kvs
  induction kvs with
  | nil => rfl
  | cons kv rest ih =>
    rcases kv with ⟨k1, v1⟩
    by_cases h1 : k1 = "total_de_paginas"
    · subst h1
      have hb : ("total_de_paginas" == key) = false := by
        simp [Ne.symm hk]
      simp [jlookup, hb, ih]
    · simp only [List.map_cons]
      rw [if_neg h1]
      simp only [jlookup, ih]

theorem callOmie_tweak_get (g0 : Json → Json) (st : Nat) (body : Json) (k : String) (d : Json)
    (hk : k ≠ "total_de_paginas") :
    pyGetD (callOmieApi (.success st (mapTpVal g0 body))) k d
      = pyGetD (callOmieApi (.success st body)) k d := by
  rcases body with _ | b | nn | s | xs | kvs
  · rfl
  · rfl
  · rfl
  · rfl
  · rfl
  · simp only [mapTpVal, callOmieApi]
    rw [jlookup_mapTp g0 "faultstring" (by decide) kvs, jlookup_mapTp g0 "faultcode" (by decide) kvs]
    by_cases hf : (pyTruthy ((jlookup kvs "faultstring").getD .null)
        || pyTruthy ((jlookup kvs "faultcode").getD .null)) = true
    · rw [if_pos hf, if_pos hf]
    · rw [if_neg hf, if_neg hf]
      simp only [pyGetD]
      rw [jlookup_mapTp g0 k hk kvs]

theorem pageStep_tweak (env : OmieEnv) (g : Nat → Json → Json) (i n m cd : Json) (p : Nat)
    (hp : 2 ≤ p) (st : St) (tr : List Nat) :
    (pageStep (tweakLaterTp env g) i n m cd p st) tr = (pageStep env i n m cd p st) tr := by
  have hcl : ∀ (k : String) (d : Json), k ≠ "total_de_paginas" →
      pyGetD (callOmieApi ((tweakLaterTp env g).clientes p (buildFilter n m cd))) k d
        = pyGetD (callOmieApi (env.clientes p (buildFilter n m cd))) k d := by
    intro k d hk
    have hdef : (tweakLaterTp env g).clientes p (buildFilter n m cd)
        = match env.clientes p (buildFilter n m cd) with
          | .success st2 body => .success st2 (mapTpVal (g p) body)
          | o => o := by
      show (if 2 ≤ p then _ else _) = _
      rw [if_pos hp]
    rw [hdef]
    rcases env.clientes p (buildFilter n m cd) with ⟨st2, body⟩ | ⟨st2, text⟩ | msg2 | st2
    · exact callOmie_tweak_get (g p) st2 body k d hk
    · rfl
    · rfl
    · rfl
  have he := hcl "error" .null (by decide)
  have hm := hcl "message" (.str "Erro desconhecido na API") (by decide)
  have hc := hcl "clientes_cadastro" .null (by decide)
  simp only [pageStep, he, hm, hc]

theorem scanRest_tweak (env : OmieEnv) (g : Nat → Json → Json) (i n m cd : Json) :
    ∀ (ps : List Nat), (∀ p ∈ ps, 2 ≤ p) → ∀ (st : St) (tr : List Nat),
    (scanRest (tweakLaterTp env g) i n m cd ps st) tr = (scanRest env i n m cd ps st) tr := by
  intro ps
  induction ps with
  | nil => intro _ st tr; rfl
  | cons p ps ih =>
    intro hps st tr
    by_cases hcid : pyTruthy st.custId = true
    · rw [scanRest_break _ _ _ _ _ _ _ _ hcid, scanRest_break _ _ _ _ _ _ _ _ hcid]
    · have hcid2 : pyTruthy st.custId = false := by simpa using hcid
      rw [scanRest_cons_step _ _ _ _ _ _ _ _ _ hcid2,
          scanRest_cons_step _ _ _ _ _ _ _ _ _ hcid2]
      rw [pageStep_tweak env g i n m cd p (hps p (by simp)) st tr]
      rcases (pageStep env i n m cd p st) tr with ⟨e | out, tr1⟩
      · rfl
      · rcases out with s | st1
        · rfl
        · exact ih (fun q hq => hps q (by simp [hq])) st1 tr1

theorem bind_congr_right {α β : Type} (x : PyM α) (f g : α → PyM β)
    (h : ∀ (a : α) (tr : List Nat), (f a) tr = (g a) tr) (tr : List Nat) :
    (x >>= f) tr = (x >>= g) tr := by
  rw [PyM.bind_apply, PyM.bind_apply]
  rcases x tr with ⟨e | a, tr1⟩
  · rfl
  · exact h a tr1

theorem scanAll_tweak (env : OmieEnv) (g : Nat → Json → Json) (i n m cd : Json) (tr : List Nat) :
    (scanAll (tweakLaterTp env g) i n m cd) tr = (scanAll env i n m cd) tr := by
  have h1 : (tweakLaterTp env g).clientes 1 (buildFilter n m cd)
      = env.clientes 1 (buildFilter n m cd) := rfl
  simp only [scanAll, h1]
  refine bind_congr_right _ _ _ ?_ tr
  intro u tr0
  refine bind_congr_right _ _ _ ?_ tr0
  intro errV tr1
  by_cases htr : pyTruthy errV = true
  · simp only [htr, if_true]
  · simp only [htr, Bool.false_eq_true, if_false]
    refine bind_congr_right _ _ _ ?_ tr1
    intro tpJ tr2
    refine bind_congr_right _ _ _ ?_ tr2
    intro lst tr3
    by_cases hlst : pyTruthy lst = true
    · simp only [hlst, if_true]
      refine bind_congr_right _ _ _ ?_ tr3
      intro elems tr4
      refine bind_congr_right _ _ _ ?_ tr4
      intro out tr5
      rcases out with s | st1
      · rfl
      · simp only []
        by_cases hcid : pyTruthy st1.custId = true
        · simp only [hcid, if_true]
        · simp only [hcid, Bool.false_eq_true, if_false, Bool.not_true, Bool.false_and]
          refine bind_congr_right _ _ _ ?_ tr5
          intro bound tr6
          rcases bound with _ | nn
          · rfl
          · exact scanRest_tweak env g i n m cd (pagesAfterOne nn)
              (by
                intro q hq
                unfold pagesAfterOne at hq
                rcases List.mem_range'.mp hq with ⟨j, hj1, hj2⟩
                omega) st1 tr6
    · simp only [hlst, Bool.false_eq_true, if_false]
      refine bind_congr_right _ _ _ ?_ tr3
      intro out tr4
      rcases out with s | st1
      · rfl
      · simp only []
        by_cases hcid : pyTruthy st1.custId = true
        · simp only [hcid, if_true]
        · simp only [hcid, Bool.false_eq_true, if_false, Bool.not_false, Bool.true_and]
          by_cases hfe : pyEqOne tpJ = true
          · simp only [hfe, if_true]
          · simp only [hfe, Bool.false_eq_true, if_false]
            refine bind_congr_right _ _ _ ?_ tr4
            intro bound tr5
            rcases bound with _ | nn
            · rfl
            · exact scanRest_tweak env g i n m cd (pagesAfterOne nn)
                (by
                  intro q hq
                  unfold pagesAfterOne at hq
                  rcases List.mem_range'.mp hq with ⟨j, hj1, hj2⟩
                  omega) st1 tr5

theorem buscarPedidos_tweak (env : OmieEnv) (g : Nat → Json → Json) (cid : Json) :
    buscarPedidos (tweakLaterTp env g) cid = buscarPedidos env cid := rfl

theorem encontrar_tweak (env : OmieEnv) (g : Nat → Json → Json) (c nom cid : Json)
    (tr : List Nat) :
    (encontrarPedidosCliente (tweakLaterTp env g) c nom cid) tr
      = (encontrarPedidosCliente env c nom cid) tr := by
  simp only [encontrarPedidosCliente]
  by_cases hval : (!(pyTruthy c || pyTruthy nom || pyTruthy cid)) = true
  · simp only [hval, if_true]
  · simp only [hval, Bool.false_eq_true, if_false]
    by_cases hc : pyTruthy c = true
    · simp only [hc, if_true]
      rcases hd : pyJoinDigits c with e | d
      · simp only [hd, liftE_error_bind]
      · simp only [hd, liftE_ok_bind, liftE_apply, PyM.bind_apply, PyM.pure_apply]
        rw [scanAll_tweak]
        rfl
    · simp only [hc, Bool.false_eq_true, if_false, PyM.bind_apply, PyM.pure_apply]
      rw [scanAll_tweak]
      rfl

theorem processRecords_trace (i n m : Json) :
    ∀ (rs : List Json) (st : St) (tr : List Nat), ((processRecords i n m rs st) tr).2 = tr := by
  intro rs
  induction rs with
  | nil => intro st tr; rfl
  | cons r rest ih =>
    intro st tr
    rcases h1 : pyGetD r "cnpj_cpf" (.str "") with e | v
    · simp only [processRecords, h1, liftE_error_bind]
    · rcases h2 : pyJoinDigits v with e | d
      · simp only [processRecords, h1, h2, liftE_ok_bind, liftE_error_bind]
      · rcases h3 : pyGetD r "nome_fantasia" (.str "") with e | w
        · simp only [processRecords, h1, h2, h3, liftE_ok_bind, liftE_error_bind]
        · simp only [processRecords, h1, h2, h3, liftE_ok_bind]
          by_cases hcm : (pyTruthy n && strEqJson d n) = true
          · simp only [hcm, if_true]
            rcases hf : st.found with _ | fr
            · simp only [hf]
              rcases h4 : pyGetD r "codigo_cliente_omie" .null with e | cidv
              · simp only [h4, liftE_error_bind]
              · simp only [h4, liftE_ok_bind, PyM.pure_apply]
            · simp only [hf, PyM.pure_apply]
          · simp only [hcm, Bool.false_eq_true, if_false]
            by_cases hn2 : (pyTruthy m && !pyTruthy n) = true
            · simp only [hn2, if_true]
              rcases h5 : asStrLower m with e | hl
              · simp only [h5, liftE_error_bind]
              · rcases h6 : asStrLower w with e | al
                · simp only [h5, h6, liftE_ok_bind, liftE_error_bind]
                · simp only [h5, h6, liftE_ok_bind]
                  by_cases h7 : strIn hl al = true
                  · simp only [h7, if_true]
                    exact ih _ tr
                  · simp only [h7, Bool.false_eq_true, if_false]
                    exact ih st tr
            · simp only [hn2, Bool.false_eq_true, if_false]
              exact ih st tr

theorem pageStep_trace (env : OmieEnv) (i n m cd : Json) (p : Nat) (st : St) (tr : List Nat) :
    ((pageStep env i n m cd p st) tr).2 = tr ++ [p] := by
  simp only [pageStep, logPage_bind]
  rcases h1 : pyGetD (callOmieApi (env.clientes p (buildFilter n m cd))) "error" .null
    with e | errV
  · simp only [h1, liftE_error_bind]
  · simp only [h1, liftE_ok_bind]
    by_cases h2 : pyTruthy errV = true
    · simp only [h2, if_true]
      rcases h3 : pyGetD (callOmieApi (env.clientes p (buildFilter n m cd))) "message"
          (.str "Erro desconhecido na API") with e | msgV
      · simp only [h3, liftE_error_bind]
      · simp only [h3, liftE_ok_bind, PyM.pure_apply]
    · simp only [h2, Bool.false_eq_true, if_false]
      rcases h4 : pyGetD (callOmieApi (env.clientes p (buildFilter n m cd)))
          "clientes_cadastro" .null with e | lst
      · simp only [h4, liftE_error_bind]
      · simp only [h4, liftE_ok_bind]
        by_cases h5 : pyTruthy lst = true
        · simp only [h5, if_true]
          rcases h6 : pyIter lst with e | elems
          · simp only [h6, liftE_error_bind]
          · simp only [h6, liftE_ok_bind]
            exact processRecords_trace i n m elems st (tr ++ [p])
        · simp only [h5, Bool.false_eq_true, if_false, PyM.pure_apply]

theorem scanRest_trace (env : OmieEnv) (i n m cd : Json) :
    ∀ (ps : List Nat) (st : St) (tr : List Nat),
    ∃ ext, ((scanRest env i n m cd ps st) tr).2 = tr ++ ext ∧ ∀ p ∈ ext, p ∈ ps := by
  intro ps
  induction ps with
  | nil =>
    intro st tr
    exact ⟨[], by simp [scanRest, PyM.pure_apply], by simp⟩
  | cons p ps ih =>
    intro st tr
    by_cases hcid : pyTruthy st.custId = true
    · refine ⟨[], ?_, by simp⟩
      rw [scanRest_break _ _ _ _ _ _ _ _ hcid]
      simp
    · have hcid2 : pyTruthy st.custId = false := by simpa using hcid
      rw [scanRest_cons_step _ _ _ _ _ _ _ _ _ hcid2]
      have ht := pageStep_trace env i n m cd p st tr
      rcases hps : (pageStep env i n m cd p st) tr with ⟨e | out, tr1⟩
      · rw [hps] at ht
        exact ⟨[p], by simpa using ht, by simp⟩
      · rw [hps] at ht
        rcases out with s | st1
        · exact ⟨[p], by simpa using ht, by simp⟩
        · obtain ⟨ext2, hext2, hmem2⟩ := ih st1 tr1
          have ht2 : tr1 = tr ++ [p] := ht
          refine ⟨p :: ext2, ?_, ?_⟩
          · show ((scanRest env i n m cd ps st1) tr1).2 = _
            rw [hext2, ht2]
            simp
          · intro q hq
            rcases hq with _ | hq2
            · simp
            · simp only [List.mem_cons]
              right
              exact hmem2 q (by assumption)

theorem scanAll_trace (env : OmieEnv) (i n m cd : Json) :
    TraceP (scanAll env i n m cd)
      (fun p => p ≤ max 1 (pageOneTpNat env (buildFilter n m cd))) := by
  intro tr
  simp only [scanAll, logPage_bind]
  have hone : (1 : Nat) ≤ max 1 (pageOneTpNat env (buildFilter n m cd)) := by omega
  rcases h1 : pyGetD (callOmieApi (env.clientes 1 (buildFilter n m cd))) "error" .null
    with e | errV
  · exact ⟨[1], by simp [h1, liftE_error_bind], by simpa using hone⟩
  · simp only [h1, liftE_ok_bind]
    by_cases h2 : pyTruthy errV = true
    · simp only [h2, if_true]
      rcases h3 : pyGetD (callOmieApi (env.clientes 1 (buildFilter n m cd))) "message"
          (.str "Erro desconhecido na API") with e | msgV
      · exact ⟨[1], by simp [h3, liftE_error_bind], by simpa using hone⟩
      · exact ⟨[1], by simp [h3, liftE_ok_bind, PyM.pure_apply], by simpa using hone⟩
    · simp only [h2, Bool.false_eq_true, if_false]
      rcases h3 : pyGetD (callOmieApi (env.clientes 1 (buildFilter n m cd)))
          "total_de_paginas" (.num 1) with e | tpJ
      · exact ⟨[1], by simp [h3, liftE_error_bind], by simpa using hone⟩
      · simp only [h3, liftE_ok_bind]
        rcases h4 : pyGetD (callOmieApi (env.clientes 1 (buildFilter n m cd)))
            "clientes_cadastro" .null with e | lst
        · exact ⟨[1], by simp [h4, liftE_error_bind], by simpa using hone⟩
        · simp only [h4, liftE_ok_bind]
          have htpv : ∀ nn : Int, pyLeTp 2 tpJ = .ok (some nn) →
              2 ≤ nn ∧ pageOneTpNat env (buildFilter n m cd) = nn.toNat := by
            intro nn hnn
            obtain ⟨kvs, hkvs⟩ := callOmieApi_obj (env.clientes 1 (buildFilter n m cd))
            have htpj : tpJ = (jlookup kvs "total_de_paginas").getD (.num 1) := by
              rw [hkvs] at h3
              simp [pyGetD] at h3
              exact h3.symm
            rcases tpJ with _ | b | t | s | xs | o
            · simp [pyLeTp] at hnn
            · simp only [pyLeTp] at hnn
              rcases b with _ | _ <;> simp at hnn
            · simp only [pyLeTp] at hnn
              by_cases hle : (2 : Int) ≤ t
              · rw [if_pos hle] at hnn
                simp at hnn
                subst hnn
                refine ⟨hle, ?_⟩
                have hp1 : pageOneTpNat env (buildFilter n m cd)
                    = match (jlookup kvs "total_de_paginas").getD (.num 1) with
                      | Json.num x => x.toNat
                      | _ => 1 := by
                  unfold pageOneTpNat
                  rw [hkvs]
                rw [hp1, ← htpj]
              · rw [if_neg hle] at hnn
                simp at hnn
            · simp [pyLeTp] at hnn
            · simp [pyLeTp] at hnn
            · simp [pyLeTp] at hnn
          by_cases hlst : pyTruthy lst = true
          · simp only [hlst, if_true]
            rcases h6 : pyIter lst with e | elems
            · exact ⟨[1], by simp [h6, liftE_error_bind], by simpa using hone⟩
            · simp only [h6, liftE_ok_bind, liftE_apply, PyM.bind_apply]
              rcases hpr : (processRecords i n m elems st0) (tr ++ [1]) with ⟨e | out, tr1⟩
              · have htr1 : tr1 = tr ++ [1] := by
                  have h0 := processRecords_trace i n m elems st0 (tr ++ [1])
                  rw [hpr] at h0
                  exact h0
                exact ⟨[1], by simp [htr1], by simpa using hone⟩
              · have htr1 : tr1 = tr ++ [1] := by
                  have h0 := processRecords_trace i n m elems st0 (tr ++ [1])
                  rw [hpr] at h0
                  exact h0
                rcases out with s | st1
                · exact ⟨[1], by simp [PyM.pure_apply, htr1], by simpa using hone⟩
                · by_cases hcid : pyTruthy st1.custId = true
                  · exact ⟨[1], by simp [hcid, PyM.pure_apply, htr1], by simpa using hone⟩
                  · simp only [hcid, Bool.false_eq_true, if_false, Bool.not_true, Bool.false_and]
                    rcases hb : pyLeTp 2 tpJ with e | bound
                    · exact ⟨[1], by simp [hb, liftE_error_bind, htr1], by simpa using hone⟩
                    · rcases bound with _ | nn
                      · exact ⟨[1], by simp [hb, liftE_ok_bind, PyM.pure_apply, htr1],
                          by simpa using hone⟩
                      · obtain ⟨h2nn, hpage⟩ := htpv nn hb
                        obtain ⟨ext2, hext2, hmem2⟩ :=
                          scanRest_trace env i n m cd (pagesAfterOne nn) st1 tr1
                        refine ⟨1 :: ext2, ?_, ?_⟩
                        · simp only [hb, liftE_ok_bind]
                          rw [hext2, htr1]
                          simp
                        · intro q hq
                          rcases List.mem_cons.mp hq with rfl | hq2
                          · simpa using hone
                          · have hqn := hmem2 q hq2
                            unfold pagesAfterOne at hqn
                            rcases List.mem_range'.mp hqn with ⟨j, hj1, hj2⟩
                            show q ≤ max 1 (pageOneTpNat env (buildFilter n m cd))
                            have hle2 : q ≤ nn.toNat := by omega
                            calc q ≤ nn.toNat := hle2
                              _ = pageOneTpNat env (buildFilter n m cd) := hpage.symm
                              _ ≤ max 1 (pageOneTpNat env (buildFilter n m cd)) :=
                                  le_max_right 1 _
          · have hlst2 : pyTruthy lst = false := by simpa using hlst
            simp only [hlst2, Bool.false_eq_true, if_false, PyM.bind_apply, PyM.pure_apply]
            simp only [show pyTruthy st0.custId = false from rfl, Bool.false_eq_true, if_false,
              Bool.not_false, Bool.true_and]
            by_cases hfe : pyEqOne tpJ = true
            · exact ⟨[1], by simp [hfe, PyM.pure_apply], by simpa using hone⟩
            · simp only [hfe, Bool.false_eq_true, if_false]
              rcases hb : pyLeTp 2 tpJ with e | bound
              · exact ⟨[1], by simp [hb, liftE_error_bind], by simpa using hone⟩
              · rcases bound with _ | nn
                · exact ⟨[1], by simp [hb, liftE_ok_bind, PyM.pure_apply], by simpa using hone⟩
                · obtain ⟨h2nn, hpage⟩ := htpv nn hb
                  obtain ⟨ext2, hext2, hmem2⟩ :=
                    scanRest_trace env i n m cd (pagesAfterOne nn) st0 (tr ++ [1])
                  refine ⟨1 :: ext2, ?_, ?_⟩
                  · simp only [hb, liftE_ok_bind]
                    rw [hext2]
                    simp
                  · intro q hq
                    rcases List.mem_cons.mp hq with rfl | hq2
                    · simpa using hone
                    · have hqn := hmem2 q hq2
                      unfold pagesAfterOne at hqn
                      rcases List.mem_range'.mp hqn with ⟨j, hj1, hj2⟩
                      show q ≤ max 1 (pageOneTpNat env (buildFilter n m cd))
                      have hle2 : q ≤ nn.toNat := by omega
                      calc q ≤ nn.toNat := hle2
                        _ = pageOneTpNat env (buildFilter n m cd) := hpage.symm
                        _ ≤ max 1 (pageOneTpNat env (buildFilter n m cd)) := le_max_right 1 _

/-- C6: the total-page bound of the pagination loop comes from page 1 only:
(1) rewriting the `total_de_paginas` value reported by every page from 2 on
(by an arbitrary function `g`) changes neither the tool's result nor the
sequence of pages fetched; (2) every page the loop fetches is bounded by
the `total_de_paginas` read from the page-1 response (defaulting to 1 when
absent or non-numeric); (3) on a directory whose page 1 reports 3 total
pages while every later page reports 99, exactly pages 1, 2, 3 are
fetched. -/
theorem C6_total_pages_from_page_one (env : OmieEnv) (g : Nat → Json → Json)
    (c nom cid i n m cd : Json) (tr : List Nat) :
    ((encontrarPedidosCliente (tweakLaterTp env g) c nom cid) tr
        = (encontrarPedidosCliente env c nom cid) tr)
    ∧ TraceP (scanAll env i n m cd)
        (fun p => p ≤ max 1 (pageOneTpNat env (buildFilter n m cd)))
    ∧ (encontrarPedidosCliente
          (tweakLaterTp (mkClientesEnv 3 (fun _ => []) (fun _ => .requestError "x"))
            (fun _ _ => .num 99)) .null (.str "x") .null) []
        = (.ok (.msg "Erro: Cliente não encontrado com os critérios fornecidos após verificar todas as páginas."), [1, 2, 3]) := by
  refine ⟨encontrar_tweak env g c nom cid tr, scanAll_trace env i n m cd, ?_⟩
  rfl

theorem pageStep_no_hints (env : OmieEnv) (i cd : Json) (p : Nat) (st : St) (tr : List Nat) :
    (∃ tr2, (pageStep env i .null .null cd p st) tr = (.ok (.cont st), tr2))
    ∨ (∃ s tr2, (pageStep env i .null .null cd p st) tr = (.ok (.ret s), tr2))
    ∨ (∃ e tr2, (pageStep env i .null .null cd p st) tr = (.error e, tr2)) := by
  simp only [pageStep, logPage_bind]
  rcases h1 : pyGetD (callOmieApi (env.clientes p (buildFilter .null .null cd))) "error" .null
    with e | errV
  · exact Or.inr (Or.inr ⟨e, tr ++ [p], by simp [h1, liftE_error_bind]⟩)
  · simp only [h1, liftE_ok_bind]
    by_cases h2 : pyTruthy errV = true
    · simp only [h2, if_true]
      rcases h3 : pyGetD (callOmieApi (env.clientes p (buildFilter .null .null cd))) "message"
          (.str "Erro desconhecido na API") with e | msgV
      · exact Or.inr (Or.inr ⟨e, tr ++ [p], by simp [h3, liftE_error_bind]⟩)
      · exact Or.inr (Or.inl ⟨"Erro ao buscar cliente (página " ++ toString p ++ "): "
          ++ pyStr msgV, tr ++ [p], by simp [h3, liftE_ok_bind, PyM.pure_apply]⟩)
    · simp only [h2, Bool.false_eq_true, if_false]
      rcases h4 : pyGetD (callOmieApi (env.clientes p (buildFilter .null .null cd)))
          "clientes_cadastro" .null with e | lst
      · exact Or.inr (Or.inr ⟨e, tr ++ [p], by simp [h4, liftE_error_bind]⟩)
      · simp only [h4, liftE_ok_bind]
        by_cases h5 : pyTruthy lst = true
        · simp only [h5, if_true]
          rcases h6 : pyIter lst with e | elems
          · exact Or.inr (Or.inr ⟨e, tr ++ [p], by simp [h6, liftE_error_bind]⟩)
          · simp only [h6, liftE_ok_bind]
            rcases processRecords_no_hints i elems st (tr ++ [p]) with hpr | ⟨e, hpr⟩
            · exact Or.inl ⟨tr ++ [p], hpr⟩
            · exact Or.inr (Or.inr ⟨e, tr ++ [p], hpr⟩)
        · simp only [h5, Bool.false_eq_true, if_false, PyM.pure_apply]
          exact Or.inl ⟨tr ++ [p], rfl⟩

theorem scanRest_no_hints (env : OmieEnv) (i cd : Json) :
    ∀ (ps : List Nat) (st : St) (tr : List Nat),
    (∃ tr2, (scanRest env i .null .null cd ps st) tr = (.ok (.cont st), tr2))
    ∨ (∃ s tr2, (scanRest env i .null .null cd ps st) tr = (.ok (.ret s), tr2))
    ∨ (∃ e tr2, (scanRest env i .null .null cd ps st) tr = (.error e, tr2)) := by
  intro ps
  induction ps with
  | nil => intro st tr; exact Or.inl ⟨tr, rfl⟩
  | cons p ps ih =>
    intro st tr
    by_cases hcid : pyTruthy st.custId = true
    · exact Or.inl ⟨tr, by rw [scanRest_break _ _ _ _ _ _ _ _ hcid]⟩
    · have hcid2 : pyTruthy st.custId = false := by simpa using hcid
      rw [scanRest_cons_step _ _ _ _ _ _ _ _ _ hcid2]
      rcases pageStep_no_hints env i cd p st tr with ⟨tr2, hps⟩ | ⟨s, tr2, hps⟩ | ⟨e, tr2, hps⟩
      · rw [hps]
        exact ih st tr2
      · rw [hps]
        exact Or.inr (Or.inl ⟨s, tr2, rfl⟩)
      · rw [hps]
        exact Or.inr (Or.inr ⟨e, tr2, rfl⟩)

theorem scanAll_no_hints (env : OmieEnv) (i cd : Json) (tr : List Nat) :
    (∃ tr2, (scanAll env i .null .null cd) tr = (.ok (.cont st0), tr2))
    ∨ (∃ s tr2, (scanAll env i .null .null cd) tr = (.ok (.ret s), tr2))
    ∨ (∃ e tr2, (scanAll env i .null .null cd) tr = (.error e, tr2)) := by
  simp only [scanAll, logPage_bind]
  rcases h1 : pyGetD (callOmieApi (env.clientes 1 (buildFilter .null .null cd))) "error" .null
    with e | errV
  · exact Or.inr (Or.inr ⟨e, tr ++ [1], by simp [h1, liftE_error_bind]⟩)
  · simp only [h1, liftE_ok_bind]
    by_cases h2 : pyTruthy errV = true
    · simp only [h2, if_true]
      rcases h3 : pyGetD (callOmieApi (env.clientes 1 (buildFilter .null .null cd))) "message"
          (.str "Erro desconhecido na API") with e | msgV
      · exact Or.inr (Or.inr ⟨e, tr ++ [1], by simp [h3, liftE_error_bind]⟩)
      · exact Or.inr (Or.inl ⟨"Erro ao buscar cliente (página 1): " ++ pyStr msgV,
          tr ++ [1], by simp [h3, liftE_ok_bind, PyM.pure_apply]⟩)
    · simp only [h2, Bool.false_eq_true, if_false]
      rcases h3 : pyGetD (callOmieApi (env.clientes 1 (buildFilter .null .null cd)))
          "total_de_paginas" (.num 1) with e | tpJ
      · exact Or.inr (Or.inr ⟨e, tr ++ [1], by simp [h3, liftE_error_bind]⟩)
      · simp only [h3, liftE_ok_bind]
        rcases h4 : pyGetD (callOmieApi (env.clientes 1 (buildFilter .null .null cd)))
            "clientes_cadastro" .null with e | lst
        · exact Or.inr (Or.inr ⟨e, tr ++ [1], by simp [h4, liftE_error_bind]⟩)
        · simp only [h4, liftE_ok_bind]
          by_cases hlst : pyTruthy lst = true
          · simp only [hlst, if_true]
            rcases h6 : pyIter lst with e | elems
            · exact Or.inr (Or.inr ⟨e, tr ++ [1], by simp [h6, liftE_error_bind]⟩)
            · simp only [h6, liftE_ok_bind, liftE_apply, PyM.bind_apply]
              rcases processRecords_no_hints i elems st0 (tr ++ [1]) with hpr | ⟨e, hpr⟩
              · rw [hpr]
                simp only [show pyTruthy st0.custId = false from rfl, Bool.false_eq_true,
                  if_false, Bool.not_true, Bool.false_and]
                rcases hb : pyLeTp 2 tpJ with e | bound
                · exact Or.inr (Or.inr ⟨e, tr ++ [1], by simp [hb, liftE_error_bind]⟩)
                · rcases bound with _ | nn
                  · exact Or.inl ⟨tr ++ [1], by simp [hb, liftE_ok_bind, PyM.pure_apply]⟩
                  · simp only [hb, liftE_ok_bind]
                    exact scanRest_no_hints env i cd (pagesAfterOne nn) st0 (tr ++ [1])
              · rw [hpr]
                exact Or.inr (Or.inr ⟨e, tr ++ [1], rfl⟩)
          · have hlst2 : pyTruthy lst = false := by simpa using hlst
            simp only [hlst2, Bool.false_eq_true, if_false, PyM.bind_apply, PyM.pure_apply]
            simp only [show pyTruthy st0.custId = false from rfl, Bool.false_eq_true, if_false,
              Bool.not_false, Bool.true_and]
            by_cases hfe : pyEqOne tpJ = true
            · exact Or.inr (Or.inl
                ⟨"Erro: Cliente não encontrado com os critérios fornecidos (nenhum resultado na primeira página).",
                 tr ++ [1], by simp [hfe, PyM.pure_apply]⟩)
            · simp only [hfe, Bool.false_eq_true, if_false]
              rcases hb : pyLeTp 2 tpJ with e | bound
              · exact Or.inr (Or.inr ⟨e, tr ++ [1], by simp [hb, liftE_error_bind]⟩)
              · rcases bound with _ | nn
                · exact Or.inl ⟨tr ++ [1], by simp [hb, liftE_ok_bind, PyM.pure_apply]⟩
                · simp only [hb, liftE_ok_bind]
                  exact scanRest_no_hints env i cd (pagesAfterOne nn) st0 (tr ++ [1])

/-- Counterexample to C10 as stated: a city-only search over a directory
whose page-1 record carries `"cnpj_cpf": null` does NOT return a failure
string — the scan raises `TypeError` out of the tool (the
`''.join(filter(str.isdigit, ...))` at line 160 runs on `None` outside any
try/except), so "always returns a failure string" is false. -/
theorem C10_counterexample_crash_record :
    (encontrarPedidosCliente
        (mkClientesEnv (1 : Int) (fun _ => [.obj [("cnpj_cpf", .null)]])
          (fun _ => .requestError "n/a"))
        .null .null (.str "Santos")) []
      = (.error "TypeError: None não é iterável", [1]) := rfl

/-- C10 (amended): a city-only call (`cnpj_cpf` and `nome_fantasia` both
None) never produces an order list, over every directory oracle: whenever
the run terminates normally it yields a failure string, and otherwise it
raises (as `C10_counterexample_crash_record` shows it can). -/
theorem C10_city_only_never_orders_amended (env : OmieEnv) (cdJ : Json)
    (h : pyTruthy cdJ = true) (tr tr1 : List Nat) (res : ToolResult)
    (hrun : (encontrarPedidosCliente env .null .null cdJ) tr = (.ok res, tr1)) :
    isOrdersB res = false := by
  have hv : (pyTruthy Json.null || pyTruthy Json.null || pyTruthy cdJ) = true := by simp [h]
  simp only [encontrarPedidosCliente, hv, h, Bool.false_or, Bool.not_true, Bool.false_eq_true,
    if_false, show pyTruthy Json.null = false from rfl, PyM.pure_apply, PyM.bind_apply] at hrun
  rcases scanAll_no_hints env .null cdJ tr with ⟨tr2, hs⟩ | ⟨s, tr2, hs⟩ | ⟨e, tr2, hs⟩
  · rw [hs] at hrun
    have hrp : (resolvePost Json.null st0) tr2 = (.ok (.cont (none, Json.null)), tr2) := rfl
    simp only [PyM.bind_apply, hrp, show pyTruthy Json.null = false from rfl, Bool.not_false,
      Bool.true_or, if_true, PyM.pure_apply, pyTruthyOpt] at hrun
    have h1 := congrArg Prod.fst hrun
    simp only at h1
    injection h1 with h2
    rw [← h2]
    rfl
  · rw [hs] at hrun
    have h1 := congrArg Prod.fst hrun
    simp only at h1
    injection h1 with h2
    rw [← h2]
    rfl
  · rw [hs] at hrun
    simp at hrun

/-- Witness for `C10_city_only_never_orders_amended`: the concrete
city-only run over an empty one-page directory ends in the first-page
not-found message, which is not an order list. -/
theorem C10_city_only_never_orders_amended_witness :
    isOrdersB (ToolResult.msg "Erro: Cliente não encontrado com os critérios fornecidos (nenhum resultado na primeira página).") = false :=
  C10_city_only_never_orders_amended
    (mkClientesEnv (1 : Int) (fun _ => []) (fun _ => .requestError "n/a"))
    (.str "Santos") (by decide) [] [1]
    (ToolResult.msg "Erro: Cliente não encontrado com os critérios fornecidos (nenhum resultado na primeira página).")
    rfl
